import Mathlib

/-!
Verification of the extraction reconciliation pipeline of this repository.

The Python source is shallowly embedded: Python strings become `List Char`,
Python numbers become an inductive type separating `int` from `float`
(where a float is a rational or one of the non-finite markers NaN / ±Inf),
dictionary fields with optional presence become `Option` / a three-state
field type, and every function under verification is translated into a
total, executable Lean definition following the source line by line.

Embedded modules:
  * `app/data/reference_data.py`   (catalog tables and lookups)
  * `app/utils/supplier_utils.py`  (normalization and fuzzy matching)
  * `app/utils/supplier_assignment.py`
  * `app/utils/barcode_generator.py`
  * `app/utils/json_utils.py`      (sanitize_for_json, fix_nan_in_products)
  * `app/extractors/extraction_agent.py` (page JSON cleaning)
  * `app/extractors/gemini_extractor.py` (_post_process_products)
-/

/-- Python strings are modelled as lists of characters. -/
abbrev Str := List Char

/-- Turn a Lean string literal into the `Str` model. -/
def sl (s : String) : Str := s.toList

/-- Python `str.upper` for the characters that occur in this code base:
ASCII letters plus the accented Latin letters appearing in the catalog. -/
def pyUpperCh (c : Char) : Char :=
  if 'a' ≤ c ∧ c ≤ 'z' then Char.toUpper c
  else if c = 'á' then 'Á' else if c = 'à' then 'À'
  else if c = 'â' then 'Â' else if c = 'ã' then 'Ã'
  else if c = 'é' then 'É' else if c = 'ê' then 'Ê'
  else if c = 'í' then 'Í' else if c = 'ì' then 'Ì'
  else if c = 'ó' then 'Ó' else if c = 'ô' then 'Ô'
  else if c = 'õ' then 'Õ' else if c = 'ò' then 'Ò'
  else if c = 'ú' then 'Ú' else if c = 'ù' then 'Ù'
  else if c = 'ç' then 'Ç' else if c = 'ä' then 'Ä'
  else if c = 'ë' then 'Ë' else if c = 'ï' then 'Ï'
  else if c = 'ö' then 'Ö' else if c = 'ü' then 'Ü'
  else if c = 'è' then 'È' else c

/-- Python `str.upper` on the string model. -/
def pyUpper (s : Str) : Str := s.map pyUpperCh

/-- Python's `\s` class, restricted to the ASCII whitespace characters. -/
def isPySpace (c : Char) : Bool :=
  c = ' ' ∨ c = '\t' ∨ c = '\n' ∨ c = '\r' ∨ c = '\x0b' ∨ c = '\x0c'

/-- Python's `\w` class: alphanumerics, underscore, and the accented
letters used in the catalog data. -/
def isWordCh (c : Char) : Bool :=
  c.isAlphanum ∨ c = '_' ∨
  (pyUpperCh c ≠ c) ∨ c ∈ sl "ÁÀÂÃÉÊÍÌÓÔÕÒÚÙÇÄËÏÖÜÈ"

/-- ASCII decimal digit test (Python `str.isdigit` on ASCII input). -/
def isDigitCh (c : Char) : Bool := '0' ≤ c ∧ c ≤ '9'

/-- Python `str.strip()` (strip ASCII whitespace from both ends). -/
def pyStrip (s : Str) : Str :=
  ((s.dropWhile isPySpace).reverse.dropWhile isPySpace).reverse

/-- The sign/payload of a non-finite or finite Python float: a float is
either a finite rational, NaN, or a signed infinity. -/
inductive PyFloat where
  | fin (q : ℚ)
  | nan
  | inf (pos : Bool)
deriving DecidableEq, Repr

/-- A Python number: an `int` or a `float`. -/
inductive PyNum where
  | pint (n : ℤ)
  | pfloat (x : PyFloat)
deriving DecidableEq, Repr

namespace PyNum

/-- Is this number the float NaN? -/
def isNan : PyNum → Bool
  | pfloat .nan => true
  | _ => false

/-- Is this number a finite value (an int or a finite float)? -/
def isFinite : PyNum → Bool
  | pint _ => true
  | pfloat (.fin _) => true
  | _ => false

/-- Python `float(x)` applied to a number: ints are widened to floats. -/
def toFloat : PyNum → PyFloat
  | pint n => .fin (n : ℚ)
  | pfloat x => x

/-- Python addition on numbers, with `int + int = int` and IEEE rules for
the non-finite floats. -/
def add : PyNum → PyNum → PyNum
  | pint a, pint b => pint (a + b)
  | a, b =>
    match a.toFloat, b.toFloat with
    | .nan, _ => pfloat .nan
    | _, .nan => pfloat .nan
    | .inf s, .inf t => if s = t then pfloat (.inf s) else pfloat .nan
    | .inf s, .fin _ => pfloat (.inf s)
    | .fin _, .inf t => pfloat (.inf t)
    | .fin q, .fin r => pfloat (.fin (q + r))

/-- Python multiplication on numbers, with `int * int = int` and IEEE
rules (in particular `inf * 0 = nan`). -/
def mul : PyNum → PyNum → PyNum
  | pint a, pint b => pint (a * b)
  | a, b =>
    match a.toFloat, b.toFloat with
    | .nan, _ => pfloat .nan
    | _, .nan => pfloat .nan
    | .inf s, .inf t => pfloat (.inf (s = t))
    | .inf s, .fin q =>
      if q = 0 then pfloat .nan else pfloat (.inf (s = decide (0 < q)))
    | .fin q, .inf t =>
      if q = 0 then pfloat .nan else pfloat (.inf (t = decide (0 < q)))
    | .fin q, .fin r => pfloat (.fin (q * r))

/-- Python `x <= y` between a number and an integer literal; comparisons
against NaN are false. -/
def leInt (x : PyNum) (k : ℤ) : Bool :=
  match x with
  | pint n => n ≤ k
  | pfloat (.fin q) => q ≤ (k : ℚ)
  | pfloat .nan => false
  | pfloat (.inf pos) => !pos

/-- Python `x > y` between a number and an integer literal; comparisons
against NaN are false. -/
def gtInt (x : PyNum) (k : ℤ) : Bool :=
  match x with
  | pint n => k < n
  | pfloat (.fin q) => (k : ℚ) < q
  | pfloat .nan => false
  | pfloat (.inf pos) => pos

/-- Python truthiness of a number: zero is falsy, everything else
(including NaN and the infinities) is truthy. -/
def truthy : PyNum → Bool
  | pint n => n ≠ 0
  | pfloat (.fin q) => q ≠ 0
  | pfloat _ => true

end PyNum

/-- Python `sum` over a list of numbers (starts from the int 0). -/
def pySum (l : List PyNum) : PyNum := l.foldl PyNum.add (.pint 0)

/-- Round a rational to the nearest integer, ties to even
(Python's float rounding mode). -/
def roundHalfEven (q : ℚ) : ℤ :=
  let f := ⌊q⌋
  let r := q - (f : ℚ)
  if r < 1/2 then f
  else if 1/2 < r then f + 1
  else if f % 2 = 0 then f else f + 1

/-- Python `round(x, 2)`: ints are returned unchanged, finite floats are
rounded to two decimals half-to-even, non-finite floats pass through. -/
def pyRound2 : PyNum → PyNum
  | .pint n => .pint n
  | .pfloat (.fin q) => .pfloat (.fin ((roundHalfEven (q * 100) : ℚ) / 100))
  | .pfloat x => .pfloat x

/-- Decimal digits of a natural number, least significant first;
`fuel` bounds the recursion and any `fuel > n` is exact. -/
def natDigitsAux : Nat → Nat → List Nat
  | 0, _ => []
  | _ + 1, n => if n < 10 then [n] else n % 10 :: natDigitsAux (n / 10).succ (n / 10)

/-- Python `str(n)` for a natural number, as a digit string. -/
def natStr (n : Nat) : Str :=
  (natDigitsAux n.succ n).reverse.map (fun d => Char.ofNat (48 + d))

/-- Python `str(n)` for an integer. -/
def intStr (n : ℤ) : Str :=
  if n < 0 then '-' :: natStr n.natAbs else natStr n.natAbs

/-- Decode a digit string back to a natural number. -/
def natOfDigits (s : Str) : Nat :=
  s.foldl (fun acc c => acc * 10 + (c.toNat - 48)) 0

/-- Python `str.zfill(w)`: left-pad with zeros to width `w`, keeping a
leading sign in place. -/
def pyZfill (s : Str) (w : Nat) : Str :=
  match s with
  | '-' :: rest =>
    '-' :: List.replicate (w - s.length) '0' ++ rest
  | '+' :: rest =>
    '+' :: List.replicate (w - s.length) '0' ++ rest
  | _ => List.replicate (w - s.length) '0' ++ s

/-- Python `str.split()` with no separator: split on whitespace runs,
discarding empty pieces. -/
def pySplitWs : Str → List Str
  | [] => []
  | c :: rest =>
    if isPySpace c then pySplitWs rest
    else
      match pySplitWs rest with
      | [] => [[c]]
      | t :: ts =>
        match rest with
        | [] => [[c]]
        | r :: _ => if isPySpace r then [c] :: t :: ts else (c :: t) :: ts

/-- Unsigned decimal payload accepted by Python `float(...)`:
`digits`, `digits.`, `.digits`, `digits.digits`, with an optional
exponent part. Returns the rational value. -/
def parseDecimal (s : Str) : Option ℚ :=
  let mantissaOf : Str → Str → Option ℚ := fun ip fp =>
    if ip.isEmpty ∧ fp.isEmpty then none
    else if (ip ++ fp).all isDigitCh then
      some ((natOfDigits (ip ++ fp) : ℚ) / ((10 : ℚ) ^ fp.length))
    else none
  let expOf : Str → Option ℤ := fun e =>
    match e with
    | [] => none
    | '-' :: ds => if ds ≠ [] ∧ ds.all isDigitCh then some (-(natOfDigits ds : ℤ)) else none
    | '+' :: ds => if ds ≠ [] ∧ ds.all isDigitCh then some (natOfDigits ds : ℤ) else none
    | ds => if ds.all isDigitCh then some (natOfDigits ds : ℤ) else none
  let split2 := fun (sep : Char) (t : Str) =>
    match t.findIdx? (· = sep) with
    | none => (t, none)
    | some i => (t.take i, some (t.drop (i + 1)))
  let (mant, expPart) := split2 'e' (s.map Char.toLower)
  let (ip, fpOpt) := split2 '.' mant
  let base : Option ℚ :=
    match fpOpt with
    | none => mantissaOf ip []
    | some fp => mantissaOf ip fp
  match base, expPart with
  | some b, none => some b
  | some b, some e =>
    match expOf e with
    | some ex => some (b * (10 : ℚ) ^ ex)
    | none => none
  | none, _ => none

/-- Python `float(string)`: strips whitespace, accepts an optional sign,
the words `nan` / `inf` / `infinity` (case-insensitive), or a decimal
literal. `none` models the `ValueError` branch. -/
def pyParseFloat (s : Str) : Option PyFloat :=
  let t := pyStrip s
  let (sign, body) :=
    match t with
    | '-' :: rest => (false, rest)
    | '+' :: rest => (true, rest)
    | _ => (true, t)
  let low := body.map Char.toLower
  if low = sl "nan" then some .nan
  else if low = sl "inf" ∨ low = sl "infinity" then some (.inf sign)
  else
    match parseDecimal body with
    | some q => some (.fin (if sign then q else -q))
    | none => none

/-! ## `app/data/reference_data.py` -/

/-- `COLOR_MAP`: color code to color name, in source order. -/
def COLOR_MAP : List (Str × Str) :=
  [(sl "001", sl "Branco"), (sl "002", sl "Vermelho"), (sl "003", sl "Verde"),
   (sl "004", sl "Castanho"), (sl "005", sl "Amarelo"), (sl "006", sl "Lilás"),
   (sl "007", sl "Rosa"), (sl "008", sl "Azul"), (sl "009", sl "Laranja"),
   (sl "010", sl "Preto"), (sl "011", sl "Cinza"), (sl "012", sl "Bege"),
   (sl "013", sl "Camel"), (sl "014", sl "Coral"), (sl "015", sl "Chocolate"),
   (sl "016", sl "Creme"), (sl "017", sl "Dourado"), (sl "018", sl "Gelo"),
   (sl "019", sl "Grená"), (sl "020", sl "Turquesa"), (sl "021", sl "Prata"),
   (sl "022", sl "Púrpura"), (sl "023", sl "Roxo"), (sl "024", sl "Violeta"),
   (sl "025", sl "Salmão"), (sl "026", sl "Bronze"), (sl "027", sl "Cereja"),
   (sl "028", sl "Fucsia"), (sl "029", sl "Marfim"), (sl "030", sl "Tijolo")]

/-- `COLOR_CODE_MAP`: color name to color code (the reversed map). -/
def COLOR_CODE_MAP : List (Str × Str) := COLOR_MAP.map (fun p => (p.2, p.1))

/-- `SIZE_MAP`: size label to size code, in source order. -/
def SIZE_MAP : List (Str × Str) :=
  [(sl "XS", sl "001"), (sl "S", sl "002"), (sl "M", sl "003"),
   (sl "L", sl "004"), (sl "XL", sl "005"), (sl "XXL", sl "006"),
   (sl "XXXL", sl "007"), (sl "31", sl "008"), (sl "32", sl "009"),
   (sl "33", sl "010"), (sl "34", sl "011"), (sl "35", sl "012"),
   (sl "36", sl "013"), (sl "37", sl "014"), (sl "38", sl "015"),
   (sl "39", sl "016"), (sl "40", sl "017"), (sl "42", sl "018"),
   (sl "44", sl "019"), (sl "46", sl "020"), (sl "48", sl "021"),
   (sl "50", sl "022"), (sl "52", sl "023"), (sl "54", sl "024"),
   (sl "56", sl "025"), (sl "58", sl "026"), (sl "2", sl "027"),
   (sl "4", sl "028"), (sl "6", sl "029"), (sl "8", sl "030"),
   (sl "10", sl "031"), (sl "12", sl "032"), (sl "14", sl "033"),
   (sl "16", sl "034"), (sl "TU", sl "035"), (sl "28", sl "036"),
   (sl "29", sl "037"), (sl "30", sl "038"), (sl "26", sl "039"),
   (sl "27", sl "040"), (sl "39-40", sl "041"), (sl "41-42", sl "042"),
   (sl "43-44", sl "043"), (sl "41", sl "044"), (sl "43", sl "045")]

/-- `CATEGORIES`: the fixed category list, in source order. -/
def CATEGORIES : List Str :=
  [sl "CAMISAS", sl "CASACOS", sl "VESTIDOS", sl "BLUSAS", sl "CALÇAS",
   sl "CALÇÃO", sl "MALHAS", sl "SAIAS", sl "T-SHIRTS", sl "POLOS",
   sl "JEANS", sl "SWEATSHIRTS", sl "BLAZERS E FATOS", sl "BLUSÕES E PARKAS",
   sl "CALÇADO", sl "TOP", sl "ACESSÓRIOS"]

/-- `SUPPLIER_DATA`: supplier code to (name, optional markup), in source
order. -/
def SUPPLIER_DATA : List (Str × Str × Option ℚ) :=
  [(sl "01", sl "GANT", some (165/100)),
   (sl "02", sl "HUGO BOSS", some (273/100)),
   (sl "03", sl "VANDOMA- António M. Sousa", some 4),
   (sl "04", sl "ESCORPION", some (26/10)),
   (sl "05", sl "MAXMARA", some (26/10)),
   (sl "06", sl "MARELLA", some (27/10)),
   (sl "07", sl "PAUL & SHARK- DAMA", some (25/10)),
   (sl "08", sl "MARCOTEX", some (27/10)),
   (sl "09", sl "FLORENTINO COLECCION", some (26/10)),
   (sl "10", sl "MEYER- HOSEN", some (27/10)),
   (sl "11", sl "DECENIO", some (25/10)),
   (sl "12", sl "MIGUEL BELLIDO", some 3),
   (sl "13", sl "LINDENMANN", some 3),
   (sl "15", sl "TOMMY HILFIGER", some (245/100)),
   (sl "17", sl "LEBEK FASHION", some 3),
   (sl "18", sl "NAULOVER", some (26/10)),
   (sl "20", sl "DIELMAR", some (26/10)),
   (sl "22", sl "RALPH LAUREN", some (27/10)),
   (sl "23", sl "LVX", none),
   (sl "24", sl "LIU.JO", some (26/10)),
   (sl "25", sl "PENNYBLACK", some (26/10)),
   (sl "26", sl "CB BENNETT", some 3),
   (sl "27", sl "TOMMY HILFIGER- ACESS", none),
   (sl "28", sl "REFIVE", none),
   (sl "29", sl "MICHAELA LOUISA", none),
   (sl "30", sl "COCCINELLE", some (261/100)),
   (sl "31", sl "LOVE MOSCHINO- SINV", some (26/10)),
   (sl "32", sl "BOUTIQUE MOSCHINO-AEFFE", some (26/10)),
   (sl "33", sl "TWINSET- ANDRÉ COSTA", some (25/10)),
   (sl "35", sl "MORPHOPOLIS OFICINA DE ARQUITECTURA", none)]

/-- `SUPPLIER_MAP`: supplier code to supplier name. -/
def SUPPLIER_MAP : List (Str × Str) := SUPPLIER_DATA.map (fun e => (e.1, e.2.1))

/-- `SUPPLIER_MAP.values()` in iteration order. -/
def supplierNames : List Str := SUPPLIER_MAP.map (·.2)

/-- `SUPPLIER_CODE_MAP`: supplier name to supplier code. -/
def SUPPLIER_CODE_MAP : List (Str × Str) := SUPPLIER_MAP.map (fun p => (p.2, p.1))

/-- Is the first string an initial segment of the second? -/
def leadEq : Str → Str → Bool
  | [], _ => true
  | _ :: _, [] => false
  | c :: cs, d :: ds => c = d ∧ leadEq cs ds

/-- Python string containment `a in b` (contiguous substring). -/
def strIn (a : Str) : Str → Bool
  | [] => a.isEmpty
  | c :: rest => leadEq a (c :: rest) ∨ strIn a rest

/-- `get_color_name`: the color name for a code, or the code itself when
the code is not in the table. -/
def get_color_name (color_code : Str) : Str :=
  match COLOR_MAP.lookup color_code with
  | some name => name
  | none => color_code

/-- `get_color_code`: exact name lookup, then the first entry whose name
contains or is contained in the query (after uppercasing), else `none`. -/
def get_color_code (color_name : Str) : Option Str :=
  let color_name_upper := pyUpper color_name
  match COLOR_CODE_MAP.lookup color_name with
  | some code => some code
  | none =>
    COLOR_CODE_MAP.findSome? (fun p =>
      if strIn (pyUpper p.1) color_name_upper ∨ strIn color_name_upper (pyUpper p.1)
      then some p.2 else none)

/-- `get_size_code`: lookup of the uppercased size, then a fallback scan
that compares uppercased keys for equality, else `none`. -/
def get_size_code (size : Str) : Option Str :=
  let size_upper := pyUpper size
  match SIZE_MAP.lookup size_upper with
  | some code => some code
  | none =>
    SIZE_MAP.findSome? (fun p =>
      if pyUpper p.1 = size_upper then some p.2 else none)

/-- `get_category`: exact membership of the uppercased query in
`CATEGORIES` (returning the uppercased query), then the first category
that contains or is contained in it, else `none`. -/
def get_category (category_name : Str) : Option Str :=
  let category_upper := pyUpper category_name
  if category_upper ∈ CATEGORIES then some category_upper
  else
    CATEGORIES.findSome? (fun cat =>
      if strIn cat category_upper ∨ strIn category_upper cat
      then some cat else none)

/-- `get_supplier_code`: exact name lookup, then the first entry whose
uppercased name contains or is contained in the uppercased query, else
`none`. -/
def get_supplier_code (supplier_name : Str) : Option Str :=
  let supplier_upper := pyUpper supplier_name
  match SUPPLIER_CODE_MAP.lookup supplier_name with
  | some code => some code
  | none =>
    SUPPLIER_CODE_MAP.findSome? (fun p =>
      if strIn (pyUpper p.1) supplier_upper ∨ strIn supplier_upper (pyUpper p.1)
      then some p.2 else none)

/-- `get_markup`: the markup for a supplier code (the `zfill` in the
source is the identity on the two-character codes modelled here). -/
def get_markup (supplier_code : Str) : Option ℚ :=
  let code_str := if supplier_code.length = 1 then pyZfill supplier_code 2 else supplier_code
  match SUPPLIER_DATA.find? (fun e => e.1 = code_str) with
  | some e => e.2.2
  | none => none

/-! ## `app/utils/supplier_utils.py` -/

/-- Attempt to match one company-suffix regex `\bCORE\.?\b` at the head of
`s` (case-insensitively; `core` is the literal pattern body, uppercase,
with its literal dots). `prevW` says whether the character before `s` in
the full string is a word character. Returns the matched length. -/
def tryPat (core : Str) (prevW : Bool) (s : Str) : Option Nat :=
  if prevW then none
  else
    let rec eat : Str → Str → Option Str
      | [], rest => some rest
      | _ :: _, [] => none
      | p :: ps, c :: cs =>
        if p = '.' then (if c = '.' then eat ps cs else none)
        else if pyUpperCh c = p then eat ps cs else none
    match eat core s with
    | none => none
    | some rest =>
      match rest with
      | '.' :: c :: _ =>
        if isWordCh c then some (core.length + 1)
        else if isWordCh '.' then none else some core.length
      | ['.'] => some core.length
      | c :: _ => if isWordCh c then none else some core.length
      | [] => some core.length

/-- One `re.sub(pattern, '', s)` pass: scan left to right, removing every
non-overlapping match; `prevW` tracks whether the previous character of
the original string is a word character (for the `\b` assertions). -/
def subPatAux (core : Str) : Nat → Bool → Str → Str
  | 0, _, s => s
  | fuel + 1, prevW, s =>
    match s with
    | [] => []
    | c :: rest =>
      match tryPat core prevW (c :: rest) with
      | some n =>
        let consumed := List.take n (c :: rest)
        let lastW := match consumed.getLast? with
          | some lc => isWordCh lc
          | none => prevW
        subPatAux core fuel lastW (List.drop n (c :: rest))
      | none => c :: subPatAux core fuel (isWordCh c) rest

/-- `re.sub` of one company-suffix pattern with the empty string. -/
def pySub (core : Str) (s : Str) : Str := subPatAux core (s.length + 1) false s

/-- The suffix pattern bodies of `normalize_supplier_name`, in source
order (each stands for `\bBODY\.?\b`, case-insensitive). -/
def suffixPatterns : List Str :=
  [sl "S.P.A", sl "S.A", sl "S.L", sl "LTD", sl "LTDA", sl "INC",
   sl "LLC", sl "GMBH", sl "CO", sl "CORP", sl "B.V", sl "A.G"]

/-- Collapse whitespace runs to single spaces and strip the ends
(`re.sub(r'\s+', ' ', s).strip()`). -/
def collapseWs (s : Str) : Str := List.intercalate [' '] (pySplitWs s)

/-- `normalize_supplier_name`: uppercase, drop the company suffixes,
turn the remaining non-word non-space characters into spaces, collapse
whitespace. -/
def normalize_supplier_name (name : Str) : Str :=
  if name = [] then []
  else
    let r1 := pyUpper name
    let r2 := suffixPatterns.foldl (fun acc pat => pySub pat acc) r1
    let r3 := r2.map (fun c => if ¬ isWordCh c ∧ ¬ isPySpace c then ' ' else c)
    collapseWs r3

/-- Length of the common initial run of two strings. -/
def runLen : Str → Str → Nat
  | a :: as, b :: bs => if a = b then runLen as bs + 1 else 0
  | _, _ => 0

/-- `difflib.SequenceMatcher.find_longest_match` over the whole strings
(no junk, as in this code base): the longest matching block, preferring
the earliest start in `a`, then in `b`. Returns (start in a, start in b,
size). -/
def findLongestMatch (a b : Str) : Nat × Nat × Nat :=
  (List.range a.length).foldl (fun best i =>
    (List.range b.length).foldl (fun best j =>
      let k := runLen (a.drop i) (b.drop j)
      if k > best.2.2 then (i, j, k) else best) best) (0, 0, 0)

/-- Total size of all matching blocks (`get_matching_blocks`), computed by
the same divide-and-conquer as difflib; the fuel dominates the sum of the
lengths, which strictly decreases. -/
def matchedAux : Nat → Str → Str → Nat
  | 0, _, _ => 0
  | fuel + 1, a, b =>
    let t := findLongestMatch a b
    if t.2.2 = 0 then 0
    else
      t.2.2 + matchedAux fuel (a.take t.1) (b.take t.2.1) +
        matchedAux fuel (a.drop (t.1 + t.2.2)) (b.drop (t.2.1 + t.2.2))

/-- Total matched size between two strings. -/
def smMatched (a b : Str) : Nat := matchedAux (a.length + b.length + 1) a b

/-- `SequenceMatcher.ratio()`: `2*M / (len(a)+len(b))`, and 1 for two
empty strings. -/
def seqRatioQ (a b : Str) : ℚ :=
  if a.length + b.length = 0 then 1
  else 2 * (smMatched a b : ℚ) / ((a.length + b.length : ℕ) : ℚ)

/-- The token set of a string: whitespace-split tokens, deduplicated. -/
def tokenSet (s : Str) : List Str := (pySplitWs s).dedup

/-- `calculate_similarity_score`: 0.4 · sequence ratio + 0.4 · token-set
overlap + 0.2 bonus for a shared significant token, capped at 1. -/
def calculate_similarity_score (str1 str2 : Str) : ℚ :=
  let seqSim := seqRatioQ str1 str2
  let tokens1 := tokenSet str1
  let tokens2 := tokenSet str2
  let setSim : ℚ :=
    if tokens1 = [] ∨ tokens2 = [] then 0
    else ((tokens1.filter (· ∈ tokens2)).length : ℚ) /
      (max tokens1.length tokens2.length : ℚ)
  let significant := tokens1.any (fun t1 =>
    decide (t1.length ≥ 4) ∧ tokens2.any (fun t2 =>
      t1 = t2 ∨ (decide (t1.length ≥ 4) ∧ strIn t1 t2) ∨
        (decide (t2.length ≥ 4) ∧ strIn t2 t1)))
  let bonus : ℚ := if significant then 1/5 else 0
  min (seqSim * (2/5) + setSim * (2/5) + bonus) 1

/-- The in-loop floor of `find_most_similar_supplier`: a common token of
length at least 4 raises the score to at least 0.7. -/
def tokenFloor (n sup : Str) (score : ℚ) : ℚ :=
  (pySplitWs n).foldl (fun sc tok =>
    if decide (tok.length ≥ 4) ∧ tok ∈ pySplitWs sup then max sc (7/10) else sc)
    score

/-- `find_most_similar_supplier`: exact match on normalized names first
(score 1), otherwise the best floored similarity score over the catalog,
skipping entries that normalize to the empty string. -/
def find_most_similar_supplier (normalized_supplier : Str) :
    Option Str × ℚ :=
  if normalized_supplier = [] then (none, 0)
  else
    match supplierNames.find?
        (fun s => normalize_supplier_name s = normalized_supplier) with
    | some s => (some s, 1)
    | none =>
      supplierNames.foldl (fun best known =>
        let ns := normalize_supplier_name known
        if ns = [] then best
        else
          let score0 := calculate_similarity_score normalized_supplier ns
          let score := tokenFloor normalized_supplier ns score0
          if score > best.2 then (some known, score) else best) (none, 0)

/-- The placeholder returned for blank supplier input. -/
def fornecedorNaoIdentificado : Str := sl "Fornecedor não identificado"

/-- `match_supplier_name`: blank input yields the placeholder; an exact
catalog name is returned unchanged; otherwise the best fuzzy match wins
when its score exceeds 0.3, else the input is returned unchanged. -/
def match_supplier_name (extracted_supplier : Str) : Str :=
  if extracted_supplier = [] ∨ pyStrip extracted_supplier = [] then
    fornecedorNaoIdentificado
  else if extracted_supplier ∈ supplierNames then extracted_supplier
  else
    let normalized_extracted := normalize_supplier_name extracted_supplier
    if normalized_extracted = [] then extracted_supplier
    else
      let r := find_most_similar_supplier normalized_extracted
      match r.1 with
      | some best => if best ≠ [] ∧ r.2 > 3/10 then best else extracted_supplier
      | none => extracted_supplier

/-- `get_normalized_supplier`: the matched name plus its catalog code,
looked up first by exact catalog name, then via `get_supplier_code`. -/
def get_normalized_supplier (supplier_name : Str) : Str × Option Str :=
  let normalized_name := match_supplier_name supplier_name
  match SUPPLIER_DATA.find? (fun e => e.2.1 = normalized_name) with
  | some e => (normalized_name, some e.1)
  | none => (normalized_name, get_supplier_code normalized_name)

/-! ## Product data model

Cleaned per-page products (the output of `_extract_and_clean_json` and
the input of `_post_process_products`). A dictionary field that can be
missing or `None` is an `Option`; the price slots distinguish a missing
key from an explicit `None` (`PField`). A `None`-valued `name`, a
`None`-valued quantity reaching `sum`, or a missing markup reaching the
price fill would raise in the source and abort the whole job; the model
keeps the corresponding value unchanged on those (claim-irrelevant)
paths. -/

/-- A price-like dictionary slot: missing key, explicit `None`, or a
number. -/
inductive PField where
  | absent
  | pnone
  | pnum (v : PyNum)
deriving DecidableEq, Repr

/-- Python truthiness of a price slot (`color.get(field)` used as a
condition): missing and `None` are falsy, a number by its value. -/
def PField.truthy : PField → Bool
  | .pnum v => v.truthy
  | _ => false

/-- `d.get(field, default)` restricted to the guarded uses in the source
(where the slot holds a number). -/
def PField.getNum (d : PyNum) : PField → PyNum
  | .pnum v => v
  | _ => d

/-- Does this slot count as missing/None/NaN (`field not in d or d[field]
is None or math.isnan(d[field])`)? -/
def PField.badPrice : PField → Bool
  | .absent => true
  | .pnone => true
  | .pnum v => v.isNan

/-- One size entry of a cleaned color. -/
structure SizeQ where
  size : Option Str
  quantity : Option PyNum
deriving DecidableEq, Repr

/-- One cleaned color variant. -/
structure Color where
  color_code : Option Str
  color_name : Option Str
  supplier : Option Str
  unit_price : PField
  sales_price : PField
  subtotal : PField
  sizes : List SizeQ
deriving DecidableEq, Repr

/-- One generated reference line. -/
structure Reference where
  reference : Str
  counter : Nat
  color_code : Str
  color_name : Str
  size : Str
  quantity : PyNum
  description : Option Str
  barcode : Option Str
  supplier : Option Str
deriving DecidableEq, Repr

/-- One cleaned product. -/
structure Product where
  name : Option Str
  material_code : Option Str
  category : Option Str
  brand : Option Str
  supplier : Option Str
  colors : List Color
  total_price : PField
  references : List Reference
deriving DecidableEq, Repr

/-- The document context fields consumed by supplier determination. -/
structure ContextInfo where
  supplier : Option Str
  brand : Option Str
deriving DecidableEq, Repr

/-! ## `app/utils/supplier_assignment.py` -/

/-- The placeholder used for an unidentified brand. -/
def marcaNaoIdentificada : Str := sl "Marca não identificada"

/-- `determine_best_supplier`: gather up to two candidates (context
supplier, then context brand when distinct), match each against the
catalog, score 1.0 for an exact match else 0.8, plus 0.1 for the
supplier-sourced candidate, and keep the best; with no catalog hit the
first raw candidate is returned with no code and markup `None`
(`or 2.73` applies on the normal return only). The boolean in a
candidate marks the supplier-context source. -/
def determine_best_supplier (ctx : ContextInfo) :
    Str × Option Str × Option ℚ :=
  let supplier_from_context := ctx.supplier.getD []
  let brand_from_context := ctx.brand.getD []
  let candidates : List (Bool × Str) :=
    (if supplier_from_context ≠ [] ∧
        supplier_from_context ≠ fornecedorNaoIdentificado
     then [(true, supplier_from_context)] else []) ++
    (if brand_from_context ≠ [] ∧
        brand_from_context ≠ marcaNaoIdentificada ∧
        brand_from_context ≠ supplier_from_context
     then [(false, brand_from_context)] else [])
  match candidates with
  | [] => (fornecedorNaoIdentificado, none, none)
  | first :: _ =>
    let best := candidates.foldl
      (fun (best : Option Str × Option Str × ℚ) cand =>
        let matched := match_supplier_name cand.2
        let code := get_supplier_code matched
        match code with
        | some c =>
          if matched ∈ supplierNames then
            let score : ℚ :=
              (if matched = cand.2 then 1
               else if matched ∈ supplierNames then 8/10 else 3/10) +
              (if cand.1 then 1/10 else 0)
            if score > best.2.2 then (some matched, some c, score) else best
          else best
        | none => best) (none, none, 0)
    match best.1 with
    | some bm =>
      let scode := best.2.1
      let markup := match scode with
        | some c => get_markup c
        | none => none
      (bm, scode,
        some (match markup with
          | some m => if m = 0 then 273/100 else m
          | none => 273/100))
    | none => (first.2, none, some (273/100))

/-- `assign_supplier_to_products`: stamp the resolved supplier onto every
product, color and reference line, filling `sales_price` from the markup
and `subtotal` from the quantities only where missing/falsy. -/
def assign_supplier_to_products (products : List Product)
    (supplier_name : Str) (markup : Option ℚ) : List Product :=
  if products = [] then products
  else products.map (fun p =>
    let colors := p.colors.map (fun c =>
      let c := { c with supplier := some supplier_name }
      let c :=
        if !c.sales_price.truthy && c.unit_price.truthy then
          match markup with
          | some m =>
            { c with sales_price := .pnum (pyRound2
                (PyNum.mul (c.unit_price.getNum (.pint 0))
                  (.pfloat (.fin m)))) }
          | none => c
        else c
      if c.unit_price.truthy && !c.sizes.isEmpty then
        let total_quantity :=
          pySum (c.sizes.map (fun s => s.quantity.getD (.pint 0)))
        if !c.subtotal.truthy && total_quantity.gtInt 0 then
          { c with subtotal := .pnum (pyRound2
              (PyNum.mul (c.unit_price.getNum (.pint 0)) total_quantity)) }
        else c
      else c)
    let refs := p.references.map (fun r => { r with supplier := some supplier_name })
    { p with supplier := some supplier_name, colors := colors,
             references := refs })

/-! ## `app/utils/barcode_generator.py` -/

/-- The supplier block of `generate_barcode`: the catalog code of the
normalized supplier (`"00"` when unresolved), zero-filled to two. -/
def barcodeSupplierCode (supplier : Str) : Str :=
  let nsc := get_normalized_supplier supplier
  let supplier_code := match nsc.2 with
    | none => sl "00"
    | some c => if c = [] then sl "00" else c
  pyZfill supplier_code 2

/-- The counter block of `generate_barcode`:
`str(100 + min(product_counter, 899)).zfill(3)`. -/
def barcodeCounterCode (product_counter : ℤ) : Str :=
  pyZfill (intStr (100 + min product_counter 899)) 3

/-- The color block of `generate_barcode`: the color code zero-filled to
three when non-empty, else `"001"`. -/
def barcodeColorCode (color_code : Str) : Str :=
  if color_code ≠ [] then pyZfill color_code 3 else sl "001"

/-- The size block of `generate_barcode`: the catalog size code (falsy
lookup results replaced by `"001"`), zero-filled to three. -/
def barcodeSizeCode (size : Str) : Str :=
  let size_code := match get_size_code size with
    | some sc => if sc = [] then sl "001" else sc
    | none => sl "001"
  pyZfill size_code 3

/-- `generate_barcode`: season code (caller default `"00"`), two-digit
supplier code (`"00"` when unresolved), `100 + min(counter, 899)` as a
zero-filled three-digit block, zero-filled color code (default `"001"`),
and zero-filled catalog size code (default `"001"`). The source wraps
this in a `try/except` returning a dummy code; no operation of the body
can raise on the string/number inputs modelled here, so the model is the
body. -/
def generate_barcode (supplier : Str) (product_counter : ℤ)
    (color_code : Str) (size : Str) (season_code : Str) : Str :=
  season_code ++ barcodeSupplierCode supplier ++
    barcodeCounterCode product_counter ++ barcodeColorCode color_code ++
    barcodeSizeCode size

/-- The inner (per-size) loop body of `add_barcodes_to_products`: skip
`quantity <= 0`, otherwise append a reference (without `description` and
without `supplier`) carrying the next counter value and a barcode. -/
def barcodeSizeStep (material_code color_code color_name supplier : Str)
    (acc : List Reference × Nat) (size_info : SizeQ) :
    List Reference × Nat :=
  let size := size_info.size.getD []
  let quantity := size_info.quantity.getD (.pint 0)
  if quantity.leInt 0 then acc
  else
    let counter := acc.2 + 1
    (acc.1 ++ [{
      reference := material_code ++ '.' :: natStr counter,
      counter := counter,
      color_code := color_code,
      color_name := color_name,
      size := size,
      quantity := quantity,
      description := none,
      barcode := some (generate_barcode supplier (counter : ℤ)
        color_code size (sl "00")),
      supplier := none }], counter)

/-- The outer (per-color) loop body of `add_barcodes_to_products`. -/
def barcodeColorStep (material_code brand : Str)
    (acc : List Reference × Nat) (color : Color) :
    List Reference × Nat :=
  let color_code := color.color_code.getD []
  let color_name := color.color_name.getD []
  let supplier := color.supplier.getD brand
  color.sizes.foldl (barcodeSizeStep material_code color_code color_name supplier) acc

/-- The reference list built by `add_barcodes_to_products` for one
product: iterate colors then sizes, skip `quantity <= 0`, count from 1
(the per-material counter dictionary is reset to 0 for every product, so
it is local to the product). -/
def buildBarcodeRefs (material_code : Str) (brand : Str)
    (colors : List Color) : List Reference :=
  (colors.foldl (barcodeColorStep material_code brand) ([], 0)).1

/-- `add_barcodes_to_products`: rebuild every product's reference list
with barcodes (the surrounding `try/except` is unreachable on modelled
inputs). -/
def add_barcodes_to_products (products : List Product) : List Product :=
  products.map (fun p =>
    let material_code := p.material_code.getD []
    let brand := p.brand.getD []
    { p with references := buildBarcodeRefs material_code brand p.colors })

/-! ## `app/extractors/gemini_extractor.py` — `_post_process_products` -/

/-- `[A-Za-z\s]` (ASCII letters or whitespace). -/
def isAlphaSpace (c : Char) : Bool := c.isAlpha ∨ isPySpace c

/-- May a match tail contain these characters under `.*$`? No inner
newline; at most one trailing newline (where `$` also matches). -/
def tailCharsOk (rest : Str) : Bool :=
  rest.all (· ≠ '\n') ∨
  (rest.getLast? = some '\n' ∧ rest.dropLast.all (· ≠ '\n'))

/-- Does `r` match `(?:\s+\d+.*)?$` (the part of the name-cleaning regex
after group 1)? With the optional group empty, `$` requires the end or a
final newline; otherwise a whitespace run, a digit, then no further
newline except a trailing one. -/
def matchTail (r : Str) : Bool :=
  decide (r = []) || decide (r = ['\n']) ||
  (let sp := r.takeWhile isPySpace
   !sp.isEmpty &&
   match r.drop sp.length with
   | d :: rest => isDigitCh d && tailCharsOk rest
   | [] => false)

/-- The name-cleaning step of `_post_process_products`:
`re.match(r'^([A-Za-z\s]+)(?:\s+\d+.*)?$', name)` with a greedy group 1,
falling back to deleting all digits and collapsing whitespace. -/
def cleanProductName (name : Str) : Str :=
  let g := name.takeWhile isAlphaSpace
  match ((List.range g.length).reverse.map (· + 1)).find?
      (fun L => matchTail (name.drop L)) with
  | some L => pyStrip (name.take L)
  | none => collapseWs (name.filter (fun c => ¬ isDigitCh c))

/-- The category-normalization step of `_post_process_products`:
POLO/POLOSHIRT force `POLOS`, the sweater words force `MALHAS`, then the
first bidirectionally-containing catalog category, else `ACESSÓRIOS`. -/
def normalizeCategory (original_category : Option Str) : Str :=
  let category_upper := match original_category with
    | some c => if c ≠ [] then pyUpper c else []
    | none => []
  if [sl "POLO", sl "POLOSHIRT"].any (fun t => strIn t category_upper) then
    sl "POLOS"
  else if [sl "SWEATER", sl "SWEAT", sl "MALHA", sl "JERSEY"].any
      (fun t => strIn t category_upper) then
    sl "MALHAS"
  else
    match CATEGORIES.find? (fun cat =>
        strIn cat category_upper ∨ strIn category_upper cat) with
    | some cat => cat
    | none => sl "ACESSÓRIOS"

/-- The color-merge loop of the deduplication step: append only colors
whose `color_code` is truthy and not already present, tracking the set of
present codes as it grows. -/
def mergeColorStep (acc : List Color × List (Option Str))
    (color : Color) : List Color × List (Option Str) :=
  match color.color_code with
  | some cc =>
    if cc ≠ [] ∧ (some cc) ∉ acc.2 then
      (acc.1 ++ [color], acc.2 ++ [some cc])
    else acc
  | none => acc

def mergeColorsInto (existing newCols : List Color) : List Color :=
  (newCols.foldl mergeColorStep (existing, existing.map (·.color_code))).1

/-- Recompute `total_price` as the sum of the non-`None` subtotals, or
`None` when there are none. -/
def recomputeTotal (colors : List Color) : PField :=
  let subtotals := colors.filterMap (fun c =>
    match c.subtotal with
    | .pnum v => some v
    | _ => none)
  if subtotals ≠ [] then .pnum (pySum subtotals) else .pnone

/-- Merge a duplicate product into the first element of `processed` with
the same material code (the source searches and breaks). -/
def mergeFirst : List Product → Str → Product → List Product
  | [], _, _ => []
  | p :: rest, mc, newp =>
    if p.material_code = some mc then
      let colors := mergeColorsInto p.colors newp.colors
      { p with colors := colors, total_price := recomputeTotal colors } :: rest
    else p :: mergeFirst rest mc newp

/-- The reference list built at first sight of a material code: iterate
colors then sizes, skip `quantity <= 0`, continue the per-material
counter from `start`, and emit the formatted description. Returns the
references and the final counter value. -/
def buildInitialRefs (material_code : Str) (cleanName : Str)
    (colors : List Color) (start : Nat) : List Reference × Nat :=
  colors.foldl (fun (acc : List Reference × Nat) color =>
    let color_code := color.color_code.getD []
    let color_name := color.color_name.getD []
    color.sizes.foldl (fun (acc : List Reference × Nat) size_info =>
      let size := size_info.size.getD []
      let quantity := size_info.quantity.getD (.pint 0)
      if quantity.leInt 0 then acc
      else
        let counter := acc.2 + 1
        (acc.1 ++ [{
          reference := material_code ++ '.' :: natStr counter,
          counter := counter,
          color_code := color_code,
          color_name := color_name,
          size := size,
          quantity := quantity,
          description := some (cleanName ++ '[' :: color_code ++ '/' :: size ++ [']']),
          barcode := none,
          supplier := none }], counter)) acc) ([], start)

/-- Replace the value of a key in the counter dictionary. -/
def updateAssoc (l : List (Str × Nat)) (k : Str) (v : Nat) :
    List (Str × Nat) :=
  l.map (fun p => if p.1 = k then (k, v) else p)

/-- The accumulator of the product loop of `_post_process_products`. -/
structure PPState where
  processed : List Product
  seen : List Str
  refCounters : List (Str × Nat)
deriving Repr

/-- One iteration of the product loop of `_post_process_products`:
skip products without a truthy material code, clean the name, require a
color with a non-empty size list, normalize the category, then either
merge into the already-seen product or append with freshly built
references. -/
def post_process_step (st : PPState) (product : Product) : PPState :=
  match product.material_code with
  | none => st
  | some mc =>
    if mc = [] then st
    else
      let product_name := product.name.getD []
      let clean_name := cleanProductName product_name
      let product := { product with name := some clean_name }
      let has_valid_colors := product.colors.any (fun c => !c.sizes.isEmpty)
      if !has_valid_colors then st
      else
        let product :=
          { product with category := some (normalizeCategory product.category) }
        if mc ∈ st.seen then
          { st with processed := mergeFirst st.processed mc product }
        else
          let seen := st.seen ++ [mc]
          let refCounters :=
            if (st.refCounters.lookup mc).isNone then st.refCounters ++ [(mc, 0)]
            else st.refCounters
          let start := (refCounters.lookup mc).getD 0
          let built := buildInitialRefs mc clean_name product.colors start
          let refCounters := updateAssoc refCounters mc built.2
          let product := { product with references := built.1 }
          { processed := st.processed ++ [product], seen := seen,
            refCounters := refCounters }

/-- Lexicographic order on strings by character code (Python `<` on
`str`, used by the final sort on material codes). -/
def strLe : Str → Str → Bool
  | [], _ => true
  | _ :: _, [] => false
  | a :: as, b :: bs => if a = b then strLe as bs else decide (a.toNat < b.toNat)

/-- Insert an element into a sorted list after all elements that compare
`le` to it (the stable position). -/
def sortedInsert {α : Type _} (le : α → α → Bool) (x : α) : List α → List α
  | [] => [x]
  | y :: ys => if le y x then y :: sortedInsert le x ys else x :: y :: ys

/-- Stable insertion sort. Python's `list.sort` is stable, and every
stable sort computes the same list for a total transitive comparison,
so this models the source's sort observably. -/
def stableSort {α : Type _} (le : α → α → Bool) (l : List α) : List α :=
  l.foldl (fun acc x => sortedInsert le x acc) []

/-- Step 3.5 of `_post_process_products` for one product: preserve the
original brand when it is truthy and not the placeholder, then force the
supplier onto the product, its colors and its references. -/
def stampProduct (supplier_name original_brand : Str) (p : Product) :
    Product :=
  let p :=
    if original_brand ≠ [] ∧ original_brand ≠ marcaNaoIdentificada then
      { p with brand := some original_brand }
    else p
  let p := { p with supplier := some supplier_name }
  let p := { p with
    colors := p.colors.map (fun (c : Color) => { c with supplier := some supplier_name }) }
  { p with
    references := p.references.map (fun (r : Reference) => { r with supplier := some supplier_name }) }

/-- `_post_process_products`: determine the document supplier once, run
the product loop, assign the supplier everywhere, preserve the original
brand, force supplier fields, sort by material code, and rebuild the
references with barcodes. Returns the products and the supplier name. -/
def post_process_products (products : List Product)
    (context_info : ContextInfo) : List Product × Str :=
  let dbs := determine_best_supplier context_info
  let supplier_name := dbs.1
  let markup := dbs.2.2
  let original_brand := context_info.brand.getD []
  let st := products.foldl post_process_step ⟨[], [], []⟩
  let processed := assign_supplier_to_products st.processed supplier_name markup
  let processed := processed.map (stampProduct supplier_name original_brand)
  let processed := stableSort
    (fun a b => strLe (a.material_code.getD []) (b.material_code.getD [])) processed
  (add_barcodes_to_products processed, supplier_name)

/-! ## `app/extractors/extraction_agent.py` — cleaning of a parsed page

Raw values as they appear in the parsed JSON before cleaning. `vjunk`
stands for a list/dict value, which `float(...)` rejects. A size value
that is a number is modelled by its string form (the cleaner never
inspects it). -/

/-- A raw JSON scalar in a quantity/price slot. -/
inductive RawVal where
  | vnull
  | vnum (n : PyNum)
  | vstr (s : Str)
  | vjunk
deriving DecidableEq, Repr

/-- A raw dictionary slot: missing key or a raw value. -/
inductive RawField where
  | absent
  | rval (v : RawVal)
deriving DecidableEq, Repr

/-- A raw string slot distinguishing a missing key from `None`. -/
inductive RawStrField where
  | absent
  | snull
  | sval (s : Str)
deriving DecidableEq, Repr

/-- A raw size entry (`size` / `quantity` slots of a size dict). -/
structure RawSize where
  size : RawStrField
  quantity : RawField
deriving DecidableEq, Repr

/-- An element of a raw `sizes` list: a dict or something else. -/
inductive RawSizeItem where
  | junkEntry
  | entry (s : RawSize)
deriving DecidableEq, Repr

/-- The raw `sizes` slot of a color: a list or something else. -/
inductive RawSizes where
  | notList
  | szlist (items : List RawSizeItem)
deriving DecidableEq, Repr

/-- A raw color dict (fields the cleaner reads or passes through). -/
structure RawColor where
  color_code : Option Str
  color_name : Option Str
  supplier : Option Str
  unit_price : RawField
  sales_price : RawField
  subtotal : RawField
  sizes : RawSizes
deriving DecidableEq, Repr

/-- An element of a raw `colors` list: a dict or something else. -/
inductive RawColorItem where
  | junkColor
  | colorItem (c : RawColor)
deriving DecidableEq, Repr

/-- The raw `colors` slot of a product: a list or something else. -/
inductive RawColors where
  | notList
  | clist (items : List RawColorItem)
deriving DecidableEq, Repr

/-- A raw product dict (fields the cleaner reads or passes through). -/
structure RawProduct where
  name : Option Str
  material_code : Option Str
  category : Option Str
  brand : Option Str
  supplier : Option Str
  colors : RawColors
  total_price : RawField
deriving DecidableEq, Repr

/-- An element of the raw `products` list: a dict or something else. -/
inductive RawProductItem where
  | junkProduct
  | prodItem (p : RawProduct)
deriving DecidableEq, Repr

/-- Python `float(v)` on a raw value (`None`/lists/dicts raise, strings
parse, numbers widen). -/
def rawToFloat : RawVal → Option PyFloat
  | .vnum n => some n.toFloat
  | .vstr s => pyParseFloat s
  | _ => none

/-- The quantity handling of the cleaner: `float(...)`, drop on failure
or on `quantity <= 0` (a NaN passes, since `nan <= 0` is false), and
coerce integral floats to `int`. -/
def cleanQuantity (q : RawVal) : Option PyNum :=
  match rawToFloat q with
  | none => none
  | some f =>
    if (PyNum.pfloat f).leInt 0 then none
    else some (match f with
      | .fin r => if r.den = 1 then .pint r.num else .pfloat (.fin r)
      | x => .pfloat x)

/-- Clean one size entry: non-dicts are dropped, both `size` and
`quantity` keys must be present, and the quantity must clean up. -/
def cleanSizeItem : RawSizeItem → Option SizeQ
  | .junkEntry => none
  | .entry s =>
    match s.size, s.quantity with
    | .absent, _ => none
    | _, .absent => none
    | sz, .rval v =>
      match cleanQuantity v with
      | none => none
      | some qn =>
        some { size := (match sz with | .sval t => some t | _ => none),
               quantity := some qn }

/-- The price coercion of the cleaner: a missing key stays missing, an
explicit `None` stays `None`, and a present value becomes a float or
`None` on failure. -/
def coercePrice : RawField → PField
  | .absent => .absent
  | .rval .vnull => .pnone
  | .rval (.vnum n) => .pnum (.pfloat n.toFloat)
  | .rval (.vstr s) =>
    match pyParseFloat s with
    | some f => .pnum (.pfloat f)
    | none => .pnone
  | .rval .vjunk => .pnone

/-- Clean one color: non-dicts and colors whose `sizes` slot is not a
list are dropped, sizes are cleaned, and a color left with no sizes is
dropped. The price coercion that the source applies in a later loop over
the surviving colors is applied here, observably identically. -/
def cleanColorItem : RawColorItem → Option Color
  | .junkColor => none
  | .colorItem rc =>
    match rc.sizes with
    | .notList => none
    | .szlist items =>
      let cleanSizes := items.filterMap cleanSizeItem
      if cleanSizes.isEmpty then none
      else some {
        color_code := rc.color_code,
        color_name := rc.color_name,
        supplier := rc.supplier,
        unit_price := coercePrice rc.unit_price,
        sales_price := coercePrice rc.sales_price,
        subtotal := coercePrice rc.subtotal,
        sizes := cleanSizes }

/-- Clean one product: non-dicts and products whose `colors` slot is not
a list are dropped, colors are cleaned, a product left with no colors is
dropped, and `total_price` is defaulted from the subtotals or coerced. -/
def cleanProductItem : RawProductItem → Option Product
  | .junkProduct => none
  | .prodItem rp =>
    match rp.colors with
    | .notList => none
    | .clist items =>
      let cleanColors := items.filterMap cleanColorItem
      if cleanColors.isEmpty then none
      else
        let total_price : PField :=
          match rp.total_price with
          | .absent => recomputeTotal cleanColors
          | .rval .vnull => recomputeTotal cleanColors
          | .rval (.vnum n) => .pnum (.pfloat n.toFloat)
          | .rval (.vstr s) =>
            match pyParseFloat s with
            | some f => .pnum (.pfloat f)
            | none => .pnone
          | .rval .vjunk => .pnone
        some {
          name := rp.name,
          material_code := rp.material_code,
          category := rp.category,
          brand := rp.brand,
          supplier := rp.supplier,
          colors := cleanColors,
          total_price := total_price,
          references := [] }

/-- The product-cleaning pass of `_extract_and_clean_json` applied to the
parsed `products` list. -/
def clean_page_products (items : List RawProductItem) : List Product :=
  items.filterMap cleanProductItem

/-! ## `app/utils/json_utils.py` -/

/-- A JSON-like value as handled by `sanitize_for_json` (every modelled
string is JSON-serializable; Python values outside the JSON fragment are
not modelled). -/
inductive JVal where
  | jnull
  | jbool (b : Bool)
  | jnum (n : PyNum)
  | jstr (s : Str)
  | jarr (l : List JVal)
  | jobj (o : List (Str × JVal))

/-- The recursion core of `sanitize_for_json`, driven by the remaining
depth `max_depth + 1 - current_depth`: the source returns `None` exactly
when `current_depth > max_depth`, i.e. when the remaining depth is zero,
and every recursive call decreases it by one. -/
def sanAux (default_number : PyFloat) (default_str : Str) :
    Nat → JVal → JVal
  | 0, _ => .jnull
  | _ + 1, .jnull => .jnull
  | _ + 1, .jbool b => .jbool b
  | _ + 1, .jnum (.pint n) => .jnum (.pint n)
  | _ + 1, .jnum (.pfloat (.fin q)) => .jnum (.pfloat (.fin q))
  | _ + 1, .jnum (.pfloat .nan) => .jnum (.pfloat default_number)
  | _ + 1, .jnum (.pfloat (.inf _)) => .jnum (.pfloat default_number)
  | _ + 1, .jstr s => if s = [] then .jstr default_str else .jstr s
  | r + 1, .jarr l => .jarr (l.map (sanAux default_number default_str r))
  | r + 1, .jobj o =>
    .jobj (o.map (fun kv => (kv.1, sanAux default_number default_str r kv.2)))

/-- `sanitize_for_json` with its four parameters (callers use
`current_depth = 0`). -/
def sanitize_for_json (default_number : PyFloat) (default_str : Str)
    (max_depth current_depth : Nat) (obj : JVal) : JVal :=
  sanAux default_number default_str (max_depth + 1 - current_depth) obj

/-- The per-color step of `fix_nan_in_products`: zero a
missing/None/NaN `unit_price`, derive a missing/None/NaN `sales_price`
from the markup, derive a missing/None/NaN `subtotal` from the (raw)
quantities, then zero missing/None/NaN quantities and keep only the
positive ones. -/
def fix_nan_color (markup : ℚ) (color : Color) : Color :=
  let c :=
    if color.unit_price.badPrice then
      { color with unit_price := .pnum (.pfloat (.fin 0)) }
    else color
  let c :=
    if c.sales_price.badPrice then
      { c with sales_price := .pnum (pyRound2
          (PyNum.mul (c.unit_price.getNum (.pint 0)) (.pfloat (.fin markup)))) }
    else c
  let c :=
    if c.subtotal.badPrice then
      let total_quantity := pySum
        ((c.sizes.filter (fun s => s.quantity.isSome)).map
          (fun s => s.quantity.getD (.pint 0)))
      { c with subtotal := .pnum (pyRound2
          (PyNum.mul (c.unit_price.getNum (.pint 0)) total_quantity)) }
    else c
  let fixed_sizes :=
    (c.sizes.map (fun s =>
      if s.quantity.isNone ∨ (s.quantity.getD (.pint 0)).isNan then
        { s with quantity := some (.pint 0) }
      else s)).filter (fun s => (s.quantity.getD (.pint 0)).gtInt 0)
  { c with sizes := fixed_sizes }

/-- The per-product step of `fix_nan_in_products`: fix the colors, drop
colors left without sizes, default a missing/None/NaN `total_price` to
the plain sum of subtotals, and drop the product when no color remains. -/
def fix_nan_product (markup : ℚ) (p : Product) : Option Product :=
  let colors := (p.colors.map (fix_nan_color markup)).filter
    (fun c => !c.sizes.isEmpty)
  let p := { p with colors := colors }
  let p :=
    if p.total_price.badPrice then
      { p with total_price := .pnum (pySum (p.colors.filterMap (fun c =>
          match c.subtotal with
          | .pnum v => some v
          | _ => none))) }
    else p
  if p.colors.isEmpty then none else some p

/-- `fix_nan_in_products` (non-dict entries of the source's input are not
modelled; the callers pass product dicts). -/
def fix_nan_in_products (products : List Product) (markup : ℚ) :
    List Product :=
  products.filterMap (fix_nan_product markup)


/-! ## Concrete inputs used by witnesses and counterexamples -/

/-- A demo size entry (`M`, quantity 2). -/
def demoSize : SizeQ := { size := some (sl "M"), quantity := some (.pint 2) }

/-- A demo size entry (`L`, quantity 3). -/
def demoSize2 : SizeQ := { size := some (sl "L"), quantity := some (.pint 3) }

/-- A demo color variant with two positive sizes and a unit price. -/
def demoColor : Color :=
  { color_code := some (sl "008"), color_name := some (sl "Azul"),
    supplier := none, unit_price := .pnum (.pfloat (.fin 50)),
    sales_price := .absent, subtotal := .absent,
    sizes := [demoSize, demoSize2] }

/-- A demo product fragment as produced by the page cleaner. -/
def demoProduct : Product :=
  { name := some (sl "Paddy 123456"), material_code := some (sl "M1"),
    category := some (sl "Polo Shirt"), brand := none, supplier := none,
    colors := [demoColor], total_price := .absent, references := [] }

/-- A demo document context naming a catalog supplier. -/
def demoCtx : ContextInfo :=
  { supplier := some (sl "HUGO BOSS"), brand := some (sl "HUGO BOSS") }

/-- An empty product used as a `headD` default. -/
def emptyProduct : Product :=
  { name := none, material_code := none, category := none, brand := none,
    supplier := none, colors := [], total_price := .absent, references := [] }

/-- The first product of the demo run of `_post_process_products`. -/
def demoOutHead : Product :=
  (post_process_products [demoProduct] demoCtx).1.headD emptyProduct

/-- A product carries a non-empty material code. -/
def hasMC (p : Product) : Prop := ∃ mc : Str, p.material_code = some mc ∧ mc ≠ []

/-- Invariant of the barcode-stage reference accumulator: the counter
equals the list length, the counters read `1, 2, …` in order, and every
emitted reference line has the formatted reference string, a positive
(not `<= 0`) quantity, no supplier and a barcode. -/
def refsOk (mc : Str) (acc : List Reference × Nat) : Prop :=
  acc.2 = acc.1.length ∧
  acc.1.map Reference.counter = List.range' 1 acc.1.length ∧
  ∀ r ∈ acc.1, r.reference = mc ++ '.' :: natStr r.counter ∧
    r.quantity.leInt 0 = false ∧ r.supplier = none ∧ r.barcode.isSome

/-- A raw size entry whose quantity is the float NaN (as produced by
`json.loads` on a `NaN` token or by `float("nan")`). -/
def c4RawSizeNaN : RawSizeItem :=
  .entry { size := .sval (sl "M"), quantity := .rval (.vnum (.pfloat .nan)) }

/-- A raw color holding only the NaN-quantity size. -/
def c4RawColor : RawColorItem :=
  .colorItem
    { color_code := some (sl "008"), color_name := none,
      supplier := none, unit_price := .absent, sales_price := .absent,
      subtotal := .absent, sizes := .szlist [c4RawSizeNaN] }

/-- A raw product holding only the NaN-quantity color. -/
def c4RawProduct : RawProductItem :=
  .prodItem
    { name := some (sl "X"), material_code := some (sl "M1"),
      category := none, brand := none, supplier := none,
      colors := .clist [c4RawColor], total_price := .absent }

/-- A well-formed raw size entry (positive integer quantity). -/
def c4GoodSize : RawSizeItem :=
  .entry { size := .sval (sl "M"), quantity := .rval (.vnum (.pint 2)) }

/-- A well-formed raw color. -/
def c4GoodColor : RawColorItem :=
  .colorItem
    { color_code := some (sl "008"), color_name := none, supplier := none,
      unit_price := .rval (.vnum (.pint 50)), sales_price := .absent,
      subtotal := .rval .vnull, sizes := .szlist [c4GoodSize] }

/-- A well-formed raw product. -/
def c4GoodRaw : RawProductItem :=
  .prodItem
    { name := some (sl "X"), material_code := some (sl "M1"),
      category := none, brand := none, supplier := none,
      colors := .clist [c4GoodColor], total_price := .absent }

/-- Is a cleaned price slot a float, `None`, or missing (never an int or
other type)? -/
def floatOrNull : PField → Bool
  | .pnum (.pint _) => false
  | _ => true

/-- A color with an Infinity unit price and a positive size, with
`sales_price`/`subtotal` present and finite. -/
def c8Color : Color :=
  { color_code := some (sl "008"), color_name := none, supplier := none,
    unit_price := .pnum (.pfloat (.inf true)),
    sales_price := .pnum (.pfloat (.fin 5)),
    subtotal := .pnum (.pfloat (.fin 5)),
    sizes := [{ size := some (sl "M"), quantity := some (.pint 2) }] }

/-- A product holding `c8Color`. -/
def c8Product : Product :=
  { name := some (sl "X"), material_code := some (sl "M1"),
    category := none, brand := none, supplier := none,
    colors := [c8Color], total_price := .pnum (.pfloat (.fin 5)),
    references := [] }

/-- The `unit_price` after the first fix of `fix_nan_color`:
missing/None/NaN becomes the float `0.0`, any other number is kept. -/
def unitAfterFix (c : Color) : PyNum :=
  if c.unit_price.badPrice then .pfloat (.fin 0)
  else c.unit_price.getNum (.pint 0)

/-- The raw total quantity summed by the subtotal derivation of
`fix_nan_color` (present quantities only, NaN included). -/
def rawTotalQuantity (c : Color) : PyNum :=
  pySum ((c.sizes.filter (fun s => s.quantity.isSome)).map
    (fun s => s.quantity.getD (.pint 0)))

/-- A color with a truthy code `"001"` (C6 inputs). -/
def c6Coded : Color :=
  { color_code := some (sl "001"), color_name := some (sl "Branco"),
    supplier := none, unit_price := .pnum (.pint 10),
    sales_price := .absent, subtotal := .pnum (.pint 20),
    sizes := [{ size := some (sl "M"), quantity := some (.pint 2) }] }

/-- A color with a truthy code `"002"` (C6 inputs). -/
def c6Coded2 : Color :=
  { color_code := some (sl "002"), color_name := some (sl "Preto"),
    supplier := none, unit_price := .pnum (.pint 10),
    sales_price := .absent, subtotal := .pnum (.pint 30),
    sizes := [{ size := some (sl "L"), quantity := some (.pint 1) }] }

/-- A color with a `None` color code (C6 counterexample). -/
def c6NoCode : Color :=
  { color_code := none, color_name := some (sl "Azul"),
    supplier := none, unit_price := .pnum (.pint 10),
    sales_price := .absent, subtotal := .pnum (.pint 40),
    sizes := [{ size := some (sl "S"), quantity := some (.pint 3) }] }

/-- The token-set overlap summand of the claimed score: common tokens
divided by the larger token-set size (0 when either set is empty). -/
def setOverlapQ (s1 s2 : Str) : ℚ :=
  if tokenSet s1 = [] ∨ tokenSet s2 = [] then 0
  else ((tokenSet s1).filter (· ∈ tokenSet s2)).length /
    (max (tokenSet s1).length (tokenSet s2).length : ℚ)

/-- Is a significant (length at least 4) token shared verbatim or as a
substring between the two token sets? -/
def significantShared (s1 s2 : Str) : Bool :=
  (tokenSet s1).any (fun t1 =>
    decide (t1.length ≥ 4) ∧ (tokenSet s2).any (fun t2 =>
      t1 = t2 ∨ (decide (t1.length ≥ 4) ∧ strIn t1 t2) ∨
        (decide (t2.length ≥ 4) ∧ strIn t2 t1)))

/-- The significant-token bonus of the claimed score. -/
def bonusQ (s1 s2 : Str) : ℚ := if significantShared s1 s2 then 1/5 else 0

/-! ## Shared lemmas -/

/-- A predicate preserved by every step of a fold holds of the result. -/
theorem foldl_inv {α σ : Type _} (f : σ → α → σ) (P : σ → Prop)
    (h : ∀ s a, P s → P (f s a)) :
    ∀ (l : List α) (s : σ), P s → P (l.foldl f s) := by
  intro l
  induction l with
  | nil => intro s hs; simpa using hs
  | cons a t ih => intro s hs; simp only [List.foldl_cons]; exact ih (f s a) (h s a hs)

/-- A predicate preserved by the steps taken on members of `l` holds of
the result of folding `l`. -/
theorem foldl_inv_mem {α σ : Type _} (f : σ → α → σ) (P : σ → Prop)
    (l : List α) (h : ∀ s a, a ∈ l → P s → P (f s a)) :
    ∀ (s : σ), P s → P (l.foldl f s) := by
  induction l with
  | nil => intro s hs; simpa using hs
  | cons a t ih =>
    intro s hs
    simpa using ih (fun s b hb hs => h s b (List.mem_cons_of_mem a hb) hs)
      (f s a) (h s a (List.mem_cons_self a t) hs)

/-- Folds of pointwise-equal step functions agree. -/
theorem foldl_ext_mem {α σ : Type _} (f g : σ → α → σ) (l : List α)
    (h : ∀ s a, a ∈ l → f s a = g s a) :
    ∀ s, l.foldl f s = l.foldl g s := by
  induction l with
  | nil => intro s; rfl
  | cons a t ih =>
    intro s
    simp only [List.foldl_cons, h s a (List.mem_cons_self a t)]
    exact ih (fun s b hb => h s b (List.mem_cons_of_mem a hb)) (g s a)

/-- `findSome?` succeeds exactly when some member succeeds. -/
theorem findSome?_isSome_iff {α β : Type _} (f : α → Option β) :
    ∀ l : List α, (l.findSome? f).isSome ↔ ∃ a ∈ l, (f a).isSome := by
  intro l
  induction l with
  | nil => simp [List.findSome?]
  | cons a t ih =>
    rw [List.findSome?_cons]
    cases hfa : f a with
    | some b => simp [hfa]
    | none => simp [hfa, ih]

/-- Re-sanitizing at the same remaining depth is the identity on the
first pass's output. -/
theorem sanAux_idem (dn : PyFloat) (ds : Str) :
    ∀ (r : Nat) (v : JVal),
      sanAux dn ds r (sanAux dn ds r v) = sanAux dn ds r v := by
  intro r
  induction r with
  | zero => intro v; rfl
  | succ r ih =>
    intro v
    cases v with
    | jnull => rfl
    | jbool b => rfl
    | jnum n =>
      cases n with
      | pint k => rfl
      | pfloat x =>
        cases x with
        | fin q => rfl
        | nan =>
          show sanAux dn ds (r + 1) (.jnum (.pfloat dn)) = .jnum (.pfloat dn)
          cases dn <;> rfl
        | inf s =>
          show sanAux dn ds (r + 1) (.jnum (.pfloat dn)) = .jnum (.pfloat dn)
          cases dn <;> rfl
    | jstr s =>
      by_cases hs : s = []
      · subst hs
        show sanAux dn ds (r + 1) (.jstr ds) = .jstr ds
        by_cases hd : ds = [] <;> simp [sanAux, hd]
      · simp [sanAux, hs]
    | jarr l =>
      show JVal.jarr ((l.map (sanAux dn ds r)).map (sanAux dn ds r)) = _
      rw [List.map_map]
      exact congrArg JVal.jarr (List.map_congr_left (fun x _ => ih x))
    | jobj o =>
      show JVal.jobj ((o.map _).map _) = _
      rw [List.map_map]
      refine congrArg JVal.jobj (List.map_congr_left (fun kv _ => ?_))
      show (kv.1, sanAux dn ds r (sanAux dn ds r kv.2)) = (kv.1, sanAux dn ds r kv.2)
      rw [ih kv.2]

/-- C7. `sanitize_for_json` is idempotent: for every value and every
fixed parameter choice (`default_number`, `default_str`, `max_depth`,
starting depth), sanitizing a sanitized structure returns it unchanged. -/
theorem c7_sanitize_for_json_idempotent
    (default_number : PyFloat) (default_str : Str)
    (max_depth current_depth : Nat) (obj : JVal) :
    sanitize_for_json default_number default_str max_depth current_depth
      (sanitize_for_json default_number default_str max_depth current_depth obj) =
    sanitize_for_json default_number default_str max_depth current_depth obj :=
  sanAux_idem default_number default_str (max_depth + 1 - current_depth) obj


/-! ## Stage lemmas for the post-processing pipeline -/

/-- `stampProduct` does not change the material code. -/
theorem stampProduct_material_code (s b : Str) (p : Product) :
    (stampProduct s b p).material_code = p.material_code := by
  by_cases h : b ≠ [] ∧ b ≠ marcaNaoIdentificada <;> simp [stampProduct, h]

/-- `stampProduct` forces the supplier on the product. -/
theorem stampProduct_supplier (s b : Str) (p : Product) :
    (stampProduct s b p).supplier = some s := by
  by_cases h : b ≠ [] ∧ b ≠ marcaNaoIdentificada <;> simp [stampProduct, h]

/-- `stampProduct` forces the supplier on every color. -/
theorem stampProduct_colors (s b : Str) (p : Product) :
    ∀ c ∈ (stampProduct s b p).colors, c.supplier = some s := by
  intro c hc
  have hcolors : (stampProduct s b p).colors =
      p.colors.map (fun (c : Color) => { c with supplier := some s }) := by
    by_cases h : b ≠ [] ∧ b ≠ marcaNaoIdentificada <;> simp [stampProduct, h]
  rw [hcolors] at hc
  rcases List.mem_map.mp hc with ⟨c0, _, hceq⟩
  rw [← hceq]

/-- Membership in the output of `add_barcodes_to_products` comes from a
source product with the same fields except the rebuilt references. -/
theorem mem_add_barcodes (products : List Product) (p : Product)
    (hp : p ∈ add_barcodes_to_products products) :
    ∃ q ∈ products,
      p = { q with references := buildBarcodeRefs (q.material_code.getD []) (q.brand.getD []) q.colors } := by
  rcases List.mem_map.mp hp with ⟨q, hq, hqe⟩
  exact ⟨q, hq, hqe.symm⟩

/-- Membership in a stable-insert is membership in the insert or list. -/
theorem mem_sortedInsert {α : Type _} (le : α → α → Bool) (x z : α) :
    ∀ l : List α, z ∈ sortedInsert le x l ↔ z = x ∨ z ∈ l := by
  intro l
  induction l with
  | nil => simp [sortedInsert]
  | cons y ys ih =>
    unfold sortedInsert
    by_cases h : le y x = true
    · rw [if_pos h]
      simp only [List.mem_cons, ih]
      tauto
    · rw [if_neg h]
      simp only [List.mem_cons]

/-- `stableSort` is a permutation membership-wise. -/
theorem mem_stableSort {α : Type _} (le : α → α → Bool) (l : List α) (z : α) :
    z ∈ stableSort le l ↔ z ∈ l := by
  suffices h : ∀ (l : List α) (acc : List α),
      z ∈ l.foldl (fun acc x => sortedInsert le x acc) acc ↔ z ∈ acc ∨ z ∈ l by
    have := h l []
    simpa [stableSort] using this
  intro l
  induction l with
  | nil => simp
  | cons x xs ih =>
    intro acc
    simp only [List.foldl_cons, ih, mem_sortedInsert, List.mem_cons]
    tauto

/-- `assign_supplier_to_products` does not change material codes. -/
theorem mem_assign_material_code (ps : List Product) (s : Str)
    (m : Option ℚ) (q : Product) (hq : q ∈ assign_supplier_to_products ps s m) :
    ∃ r ∈ ps, q.material_code = r.material_code := by
  unfold assign_supplier_to_products at hq
  by_cases hnil : ps = []
  · rw [if_pos hnil] at hq; rw [hnil] at hq; simp at hq
  · rw [if_neg hnil] at hq
    rcases List.mem_map.mp hq with ⟨r, hr, hre⟩
    exact ⟨r, hr, by rw [← hre]⟩

/-- Decomposition of membership in the output of
`_post_process_products`: every output product is a barcode-stage rebuild
of a stamped product whose material code comes from the product loop. -/
theorem mem_post_process (products : List Product) (ctx : ContextInfo)
    (p : Product) (hp : p ∈ (post_process_products products ctx).1) :
    ∃ q : Product,
      p = { q with references := buildBarcodeRefs (q.material_code.getD []) (q.brand.getD []) q.colors } ∧
      q.supplier = some (determine_best_supplier ctx).1 ∧
      (∀ c ∈ q.colors, c.supplier = some (determine_best_supplier ctx).1) ∧
      ∃ r ∈ (products.foldl post_process_step ⟨[], [], []⟩).processed,
        q.material_code = r.material_code := by
  simp only [post_process_products] at hp
  rcases mem_add_barcodes _ p hp with ⟨q, hqmem, hqeq⟩
  rw [mem_stableSort] at hqmem
  rcases List.mem_map.mp hqmem with ⟨q', hq'mem, hq'eq⟩
  rcases mem_assign_material_code _ _ _ q' hq'mem with ⟨r, hr, hrmc⟩
  refine ⟨q, hqeq, ?_, ?_, r, hr, ?_⟩
  · rw [← hq'eq]; exact stampProduct_supplier _ _ q'
  · rw [← hq'eq]; exact stampProduct_colors _ _ q'
  · rw [← hq'eq, stampProduct_material_code]; exact hrmc

/-! ## C10: products without a material code are discarded -/

/-- `mergeFirst` does not change any product's material code. -/
theorem mergeFirst_hasMC (mc : Str) (np : Product) :
    ∀ l : List Product, (∀ p ∈ l, hasMC p) → ∀ p ∈ mergeFirst l mc np, hasMC p := by
  intro l
  induction l with
  | nil => intro _ p hp; simp [mergeFirst] at hp
  | cons q t ih =>
    intro hl p hp
    unfold mergeFirst at hp
    by_cases hq : q.material_code = some mc
    · rw [if_pos hq] at hp
      rcases List.mem_cons.mp hp with hp | hp
      · rcases hl q (List.mem_cons_self q t) with ⟨mc', h1, h2⟩
        refine ⟨mc', ?_, h2⟩
        rw [hp]
        exact h1
      · exact hl p (List.mem_cons_of_mem q hp)
    · rw [if_neg hq] at hp
      rcases List.mem_cons.mp hp with hp | hp
      · exact hl p (by rw [hp]; exact List.mem_cons_self q t)
      · exact ih (fun x hx => hl x (List.mem_cons_of_mem q hx)) p hp

/-- The product loop of `_post_process_products` only accumulates
products with a non-empty material code. -/
theorem post_process_step_hasMC (st : PPState) (prod : Product)
    (h : ∀ p ∈ st.processed, hasMC p) :
    ∀ p ∈ (post_process_step st prod).processed, hasMC p := by
  simp only [post_process_step]
  split
  · exact h
  · rename_i mc hmc
    by_cases hempty : mc = []
    · rw [if_pos hempty]; exact h
    · rw [if_neg hempty]
      by_cases hvalid :
          (!List.any prod.colors fun c => !c.sizes.isEmpty) = true
      · rw [if_pos hvalid]; exact h
      · rw [if_neg hvalid]
        by_cases hseen : mc ∈ st.seen
        · rw [if_pos hseen]
          exact mergeFirst_hasMC mc _ st.processed h
        · rw [if_neg hseen]
          intro p hp
          rcases List.mem_append.mp hp with hp | hp
          · exact h p hp
          · rw [List.mem_singleton.mp hp]
            exact ⟨mc, hmc, hempty⟩

/-- C10. Every product in the final output of `_post_process_products`
has a non-empty material code: an input product whose `material_code` is
missing, `None` or empty is silently discarded before name cleaning,
merging and reference generation. -/
theorem c10_no_material_code_in_output
    (products : List Product) (context_info : ContextInfo) (p : Product)
    (hp : p ∈ (post_process_products products context_info).1) :
    ∃ mc : Str, p.material_code = some mc ∧ mc ≠ [] := by
  rcases mem_post_process products context_info p hp with
    ⟨q, hpq, _, _, r, hr, hmc⟩
  have hstep : ∀ x ∈ (products.foldl post_process_step
      (⟨[], [], []⟩ : PPState)).processed, hasMC x := by
    refine foldl_inv post_process_step (fun st => ∀ x ∈ st.processed, hasMC x)
      (fun st a hst => post_process_step_hasMC st a hst) products _ ?_
    intro x hx; simp at hx
  rcases hstep r hr with ⟨mc, h1, h2⟩
  refine ⟨mc, ?_, h2⟩
  rw [hpq]
  show q.material_code = some mc
  rw [hmc]; exact h1

/-! ## C3: reference counters -/

/-- The per-size step preserves the reference invariant. -/
theorem barcodeSizeStep_refsOk (mc cc cn sup : Str)
    (acc : List Reference × Nat) (si : SizeQ) (h : refsOk mc acc) :
    refsOk mc (barcodeSizeStep mc cc cn sup acc si) := by
  unfold barcodeSizeStep
  by_cases hq : (si.quantity.getD (.pint 0)).leInt 0 = true
  · rw [if_pos hq]; exact h
  · rw [if_neg hq]
    rcases h with ⟨hlen, hctr, hmem⟩
    refine ⟨?_, ?_, ?_⟩
    · simp [hlen]
    · simp only [List.map_append, List.length_append, List.map_cons,
        List.map_nil, List.length_cons, List.length_nil]
      rw [hctr, hlen]
      rw [List.range'_concat]
      simp only [mul_one, List.append_cancel_left_eq, List.cons.injEq, and_true]
      omega
    · intro r hr
      rcases List.mem_append.mp hr with hr | hr
      · exact hmem r hr
      · rw [List.mem_singleton.mp hr]
        refine ⟨by rw [hlen], ?_, rfl, rfl⟩
        simpa using hq

/-- The per-color step preserves the reference invariant. -/
theorem barcodeColorStep_refsOk (mc brand : Str)
    (acc : List Reference × Nat) (color : Color) (h : refsOk mc acc) :
    refsOk mc (barcodeColorStep mc brand acc color) := by
  unfold barcodeColorStep
  exact foldl_inv _ (refsOk mc)
    (fun a si ha => barcodeSizeStep_refsOk mc _ _ _ a si ha)
    color.sizes acc h

/-- The rebuilt reference list of a product satisfies the invariant. -/
theorem buildBarcodeRefs_ok (mc brand : Str) (colors : List Color) :
    refsOk mc (colors.foldl (barcodeColorStep mc brand) ([], 0)) :=
  foldl_inv _ (refsOk mc)
    (fun a c ha => barcodeColorStep_refsOk mc brand a c ha)
    colors ([], 0) ⟨rfl, rfl, by intro r hr; simp at hr⟩

/-- C3. For every product in the final output of
`_post_process_products`, the references satisfy
`references[i].counter = i + 1` (strictly increasing, no gaps, in
iteration order), every reference string is
`"{material_code}.{counter}"`, and entries with `quantity <= 0` were
skipped. -/
theorem c3_reference_counter_monotone
    (products : List Product) (context_info : ContextInfo) (p : Product)
    (hp : p ∈ (post_process_products products context_info).1)
    (i : Nat) (hi : i < p.references.length) :
    (p.references.get ⟨i, hi⟩).counter = i + 1 ∧
    (p.references.get ⟨i, hi⟩).reference =
      (p.material_code.getD []) ++ '.' :: natStr (i + 1) ∧
    (p.references.get ⟨i, hi⟩).quantity.leInt 0 = false := by
  rcases mem_post_process products context_info p hp with ⟨q, hpq, _, _, _⟩
  have hrefs : p.references =
      buildBarcodeRefs (q.material_code.getD []) (q.brand.getD []) q.colors := by
    rw [hpq]
  have hmcq : p.material_code = q.material_code := by rw [hpq]
  rcases buildBarcodeRefs_ok (q.material_code.getD []) (q.brand.getD [])
    q.colors with ⟨_, hctr, hmem⟩
  have hctr' : p.references.map Reference.counter =
      List.range' 1 p.references.length := by
    rw [hrefs]; exact hctr
  have hri : p.references[i]? = some (p.references.get ⟨i, hi⟩) :=
    List.getElem?_eq_getElem hi
  have hcounter : (p.references.get ⟨i, hi⟩).counter = i + 1 := by
    have h := congrArg (fun (l : List Nat) => l[i]?) hctr'
    simp only at h
    rw [List.getElem?_map, hri] at h
    rw [List.getElem?_range'] at h
    · simp only [Option.map_some'] at h
      have h' := Option.some.inj h
      omega
    · simpa using hi
  have hmemr : p.references.get ⟨i, hi⟩ ∈ buildBarcodeRefs
      (q.material_code.getD []) (q.brand.getD []) q.colors := by
    rw [← hrefs]
    exact List.getElem?_mem hri
  unfold buildBarcodeRefs at hmemr
  rcases hmem _ hmemr with ⟨href, hqty, _, _⟩
  rw [hcounter] at href
  refine ⟨hcounter, ?_, hqty⟩
  rw [hmcq]
  exact href

/-- Witness for C10 at the demo input. -/
theorem c10_no_material_code_in_output_witness :
    ∃ mc : Str, demoOutHead.material_code = some mc ∧ mc ≠ [] :=
  c10_no_material_code_in_output [demoProduct] demoCtx demoOutHead
    (by with_unfolding_all decide)

/-- Witness for C3 at the demo input, index 0. -/
theorem c3_reference_counter_monotone_witness :
    (demoOutHead.references.get ⟨0, by with_unfolding_all decide⟩).counter = 0 + 1 ∧
    (demoOutHead.references.get ⟨0, by with_unfolding_all decide⟩).reference =
      (demoOutHead.material_code.getD []) ++ '.' :: natStr (0 + 1) ∧
    (demoOutHead.references.get ⟨0, by with_unfolding_all decide⟩).quantity.leInt 0 = false :=
  c3_reference_counter_monotone [demoProduct] demoCtx demoOutHead
    (by with_unfolding_all decide) 0 (by with_unfolding_all decide)

/-! ## C1: the supplier single-source-of-truth claim -/

/-- C1. Evaluation of `_post_process_products` at a concrete document:
the product-level and color-level suppliers carry the document supplier,
but the reference lines of the final output carry no supplier at all —
`add_barcodes_to_products` rebuilds every reference dict without the
`supplier` key, clobbering the value set by stage 3.5 (whose own comment
says it is critical that references carry the correct supplier). -/
theorem c1_references_lose_supplier :
    ((post_process_products [demoProduct] demoCtx).1.map
      (fun p => (p.supplier, p.colors.map Color.supplier,
        p.references.map Reference.supplier))) =
    [(some (sl "HUGO BOSS"), [some (sl "HUGO BOSS")], [none, none])] := by
  with_unfolding_all decide

/-! ## C9: reference catalog lookups -/

/-- A conditional `some` is `isSome` exactly when the condition holds. -/
theorem isSome_ite_some {α : Type _} (c : Prop) [Decidable c] (x : α) :
    (if c then some x else none).isSome = true ↔ c := by
  by_cases h : c <;> simp [h]

/-- C9 counterexample. `get_color_name` applied to an unknown code
returns the code itself, not `None`, and `get_size_code` has no
substring-containment fallback: `"XS"` is contained in `"XSX"` yet the
lookup yields `None`. The claim's description of the lookup functions is
false as stated. -/
theorem c9_counterexample_lookups :
    get_color_name (sl "999") = sl "999" ∧ (sl "999") ≠ ([] : Str) ∧
    strIn (pyUpper (sl "XS")) (pyUpper (sl "XSX")) = true ∧
    get_size_code (sl "XSX") = none := by
  refine ⟨by with_unfolding_all decide, by with_unfolding_all decide,
    by with_unfolding_all decide, by with_unfolding_all decide⟩

/-- C9 (amended). The catalog lookups are total functions ("never
throw") with the following exact/fallback behaviour: `get_color_name`
returns the exact match or the query itself (no fallback, never `None`);
`get_color_code` and `get_supplier_code` try an exact (case-sensitive)
lookup first and succeed exactly when the exact lookup or a
case-insensitive substring containment matches, else `None`;
`get_size_code` succeeds exactly when the uppercased query is a key (its
fallback is case-insensitive equality, not containment); `get_category`
returns the uppercased query on exact membership and succeeds exactly on
membership or containment, else `None`. -/
theorem c9_lookup_characterization :
    (∀ code name : Str, COLOR_MAP.lookup code = some name →
      get_color_name code = name) ∧
    (∀ code : Str, COLOR_MAP.lookup code = none →
      get_color_name code = code) ∧
    (∀ q v : Str, COLOR_CODE_MAP.lookup q = some v →
      get_color_code q = some v) ∧
    (∀ q : Str, (get_color_code q).isSome ↔
      (COLOR_CODE_MAP.lookup q).isSome = true ∨
      ∃ p ∈ COLOR_CODE_MAP,
        strIn (pyUpper p.1) (pyUpper q) = true ∨
        strIn (pyUpper q) (pyUpper p.1) = true) ∧
    (∀ q : Str, (get_size_code q).isSome ↔
      (SIZE_MAP.lookup (pyUpper q)).isSome = true ∨
      ∃ p ∈ SIZE_MAP, pyUpper p.1 = pyUpper q) ∧
    (∀ q : Str, pyUpper q ∈ CATEGORIES →
      get_category q = some (pyUpper q)) ∧
    (∀ q : Str, (get_category q).isSome ↔
      pyUpper q ∈ CATEGORIES ∨
      ∃ cat ∈ CATEGORIES,
        strIn cat (pyUpper q) = true ∨ strIn (pyUpper q) cat = true) ∧
    (∀ q v : Str, SUPPLIER_CODE_MAP.lookup q = some v →
      get_supplier_code q = some v) ∧
    (∀ q : Str, (get_supplier_code q).isSome ↔
      (SUPPLIER_CODE_MAP.lookup q).isSome = true ∨
      ∃ p ∈ SUPPLIER_CODE_MAP,
        strIn (pyUpper p.1) (pyUpper q) = true ∨
        strIn (pyUpper q) (pyUpper p.1) = true) := by
  refine ⟨?_, ?_, ?_, ?_, ?_, ?_, ?_, ?_, ?_⟩
  · intro code name h
    unfold get_color_name
    rw [h]
  · intro code h
    unfold get_color_name
    rw [h]
  · intro q v h
    unfold get_color_code
    rw [h]
  · intro q
    unfold get_color_code
    cases h : COLOR_CODE_MAP.lookup q with
    | some v => simp [h]
    | none =>
      simp only [h, Option.isSome_none, Bool.false_eq_true, false_or]
      rw [findSome?_isSome_iff]
      constructor
      · rintro ⟨p, hp, hps⟩
        rw [isSome_ite_some] at hps
        exact ⟨p, hp, hps⟩
      · rintro ⟨p, hp, hps⟩
        refine ⟨p, hp, ?_⟩
        rw [isSome_ite_some]
        exact hps
  · intro q
    unfold get_size_code
    cases h : SIZE_MAP.lookup (pyUpper q) with
    | some v => simp [h]
    | none =>
      simp only [h, Option.isSome_none, Bool.false_eq_true, false_or]
      rw [findSome?_isSome_iff]
      constructor
      · rintro ⟨p, hp, hps⟩
        rw [isSome_ite_some] at hps
        exact ⟨p, hp, hps⟩
      · rintro ⟨p, hp, hps⟩
        refine ⟨p, hp, ?_⟩
        rw [isSome_ite_some]
        exact hps
  · intro q h
    unfold get_category
    rw [if_pos h]
  · intro q
    unfold get_category
    by_cases h : pyUpper q ∈ CATEGORIES
    · simp [h]
    · rw [if_neg h]
      simp only [h, false_or]
      rw [findSome?_isSome_iff]
      constructor
      · rintro ⟨p, hp, hps⟩
        rw [isSome_ite_some] at hps
        exact ⟨p, hp, hps⟩
      · rintro ⟨p, hp, hps⟩
        refine ⟨p, hp, ?_⟩
        rw [isSome_ite_some]
        exact hps
  · intro q v h
    unfold get_supplier_code
    rw [h]
  · intro q
    unfold get_supplier_code
    cases h : SUPPLIER_CODE_MAP.lookup q with
    | some v => simp [h]
    | none =>
      simp only [h, Option.isSome_none, Bool.false_eq_true, false_or]
      rw [findSome?_isSome_iff]
      constructor
      · rintro ⟨p, hp, hps⟩
        rw [isSome_ite_some] at hps
        exact ⟨p, hp, hps⟩
      · rintro ⟨p, hp, hps⟩
        refine ⟨p, hp, ?_⟩
        rw [isSome_ite_some]
        exact hps

/-- Witness for C9: the exact color-name lookup at a concrete code. -/
theorem c9_lookup_characterization_witness :
    get_color_name (sl "001") = sl "Branco" :=
  c9_lookup_characterization.1 (sl "001") (sl "Branco")
    (by with_unfolding_all decide)

/-! ## C4: the page cleaner's drop cascade -/

/-- C4 counterexample. A size entry whose quantity is NaN is *kept* by
the cleaner (`nan <= 0` is false in Python), although NaN is not a
number strictly greater than 0: the cascade the claim describes would
have dropped the size, then the color, then the product, leaving an
empty output. -/
theorem c4_counterexample_nan_quantity :
    ((clean_page_products [c4RawProduct]).map
      (fun p => p.colors.map (fun c => c.sizes.map SizeQ.quantity))) =
      [[[some (.pfloat .nan)]]] ∧
    (PyNum.pfloat .nan).gtInt 0 = false := by
  refine ⟨by with_unfolding_all decide, by with_unfolding_all decide⟩

/-- The cleaned quantity is never `<= 0` and never an integral float. -/
theorem cleanQuantity_ok (v : RawVal) (q : PyNum)
    (h : cleanQuantity v = some q) :
    q.leInt 0 = false ∧ ∀ r : ℚ, q = .pfloat (.fin r) → r.den ≠ 1 := by
  unfold cleanQuantity at h
  cases hf : rawToFloat v with
  | none => rw [hf] at h; dsimp only at h; exact absurd h (by simp)
  | some f =>
    rw [hf] at h
    dsimp only at h
    by_cases hle : (PyNum.pfloat f).leInt 0 = true
    · rw [if_pos hle] at h; exact absurd h (by simp)
    · rw [if_neg hle] at h
      cases f with
      | fin r =>
        simp only [Option.some.injEq] at h
        by_cases hden : r.den = 1
        · rw [if_pos hden] at h
          constructor
          · rw [← h]
            simp only [PyNum.leInt, decide_eq_false_iff_not, Int.not_le]
            simp only [PyNum.leInt, decide_eq_true_eq] at hle
            have hr : (0 : ℚ) < r := lt_of_not_ge (fun hc => hle (by exact_mod_cast hc))
            exact_mod_cast Rat.num_pos.mpr hr
          · intro r' hr'
            rw [← h] at hr'
            exact absurd hr' (by simp)
        · rw [if_neg hden] at h
          constructor
          · rw [← h]
            simpa [PyNum.leInt] using hle
          · intro r' hr'
            rw [← h] at hr'
            simp only [PyNum.pfloat.injEq, PyFloat.fin.injEq] at hr'
            rw [← hr']
            exact hden
      | nan =>
        simp only [Option.some.injEq] at h
        constructor
        · rw [← h]; rfl
        · intro r' hr'; rw [← h] at hr'; exact absurd hr' (by simp)
      | inf s =>
        simp only [Option.some.injEq] at h
        constructor
        · rw [← h]
          simp only [PyNum.leInt] at hle ⊢
          simpa using hle
        · intro r' hr'; rw [← h] at hr'; exact absurd hr' (by simp)

/-- Coerced price slots are floats, `None`, or missing. -/
theorem coercePrice_floatOrNull (f : RawField) :
    floatOrNull (coercePrice f) = true := by
  cases f with
  | absent => rfl
  | rval v =>
    cases v with
    | vnull => rfl
    | vnum n => rfl
    | vstr s =>
      unfold coercePrice floatOrNull
      dsimp only
      cases h : pyParseFloat s <;> rfl
    | vjunk => rfl

/-- Every size surviving `cleanSizeItem` has both keys, a cleaned
quantity that is not `<= 0`, and no integral float quantity. -/
theorem cleanSizeItem_ok (it : RawSizeItem) (s : SizeQ)
    (h : cleanSizeItem it = some s) :
    ∃ q, s.quantity = some q ∧ q.leInt 0 = false ∧
      ∀ r : ℚ, q = .pfloat (.fin r) → r.den ≠ 1 := by
  cases it with
  | junkEntry => exact absurd h (by simp [cleanSizeItem])
  | entry rs =>
    unfold cleanSizeItem at h
    dsimp only at h
    cases hsz : rs.size with
    | absent => rw [hsz] at h; exact absurd h (by simp)
    | snull =>
      rw [hsz] at h
      cases hq : rs.quantity with
      | absent => rw [hq] at h; exact absurd h (by simp)
      | rval v =>
        rw [hq] at h
        dsimp only at h
        cases hcq : cleanQuantity v with
        | none => rw [hcq] at h; exact absurd h (by simp)
        | some qn =>
          rw [hcq] at h
          dsimp only at h
          rcases cleanQuantity_ok v qn hcq with ⟨h1, h2⟩
          refine ⟨qn, ?_, h1, h2⟩
          rw [← Option.some.inj h]
    | sval t =>
      rw [hsz] at h
      cases hq : rs.quantity with
      | absent => rw [hq] at h; exact absurd h (by simp)
      | rval v =>
        rw [hq] at h
        dsimp only at h
        cases hcq : cleanQuantity v with
        | none => rw [hcq] at h; exact absurd h (by simp)
        | some qn =>
          rw [hcq] at h
          dsimp only at h
          rcases cleanQuantity_ok v qn hcq with ⟨h1, h2⟩
          refine ⟨qn, ?_, h1, h2⟩
          rw [← Option.some.inj h]

/-- Every color surviving `cleanColorItem` has a non-empty cleaned size
list and float-or-null price slots. -/
theorem cleanColorItem_ok (it : RawColorItem) (c : Color)
    (h : cleanColorItem it = some c) :
    c.sizes ≠ [] ∧
    floatOrNull c.unit_price = true ∧ floatOrNull c.sales_price = true ∧
    floatOrNull c.subtotal = true ∧
    ∀ s ∈ c.sizes, ∃ q, s.quantity = some q ∧ q.leInt 0 = false ∧
      ∀ r : ℚ, q = .pfloat (.fin r) → r.den ≠ 1 := by
  cases it with
  | junkColor => exact absurd h (by simp [cleanColorItem])
  | colorItem rc =>
    unfold cleanColorItem at h
    dsimp only at h
    cases hsz : rc.sizes with
    | notList => rw [hsz] at h; exact absurd h (by simp)
    | szlist items =>
      rw [hsz] at h
      dsimp only at h
      by_cases hemp : (items.filterMap cleanSizeItem).isEmpty = true
      · rw [if_pos hemp] at h; exact absurd h (by simp)
      · rw [if_neg hemp] at h
        have hc := Option.some.inj h
        subst hc
        refine ⟨by simpa [List.isEmpty_iff] using hemp,
          coercePrice_floatOrNull _, coercePrice_floatOrNull _,
          coercePrice_floatOrNull _, ?_⟩
        intro s hs
        rcases List.mem_filterMap.mp hs with ⟨raws, _, hraws⟩
        exact cleanSizeItem_ok raws s hraws

/-- C4 (amended). The cleaner's drop cascade: every output product has a
non-empty color list, every output color a non-empty size list, size
entries keep both keys with a quantity for which `quantity <= 0` is
false (so a NaN quantity is retained, `nan <= 0` being false — the one
divergence from the claim's "strictly greater than 0"), integral float
quantities are coerced to `int`, and price slots are floats or null or
missing. -/
theorem c4_clean_cascade (items : List RawProductItem) (p : Product)
    (hp : p ∈ clean_page_products items) :
    p.colors ≠ [] ∧
    ∀ c ∈ p.colors,
      c.sizes ≠ [] ∧
      floatOrNull c.unit_price = true ∧ floatOrNull c.sales_price = true ∧
      floatOrNull c.subtotal = true ∧
      ∀ s ∈ c.sizes, ∃ q, s.quantity = some q ∧ q.leInt 0 = false ∧
        ∀ r : ℚ, q = .pfloat (.fin r) → r.den ≠ 1 := by
  unfold clean_page_products at hp
  rcases List.mem_filterMap.mp hp with ⟨raw, _, hraw⟩
  cases raw with
  | junkProduct => exact absurd hraw (by simp [cleanProductItem])
  | prodItem rp =>
    unfold cleanProductItem at hraw
    dsimp only at hraw
    cases hcols : rp.colors with
    | notList => rw [hcols] at hraw; exact absurd hraw (by simp)
    | clist citems =>
      rw [hcols] at hraw
      dsimp only at hraw
      by_cases hemp : (citems.filterMap cleanColorItem).isEmpty = true
      · rw [if_pos hemp] at hraw; exact absurd hraw (by simp)
      · rw [if_neg hemp] at hraw
        have hpe := Option.some.inj hraw
        subst hpe
        refine ⟨by simpa [List.isEmpty_iff] using hemp, ?_⟩
        intro c hc
        rcases List.mem_filterMap.mp hc with ⟨rawc, _, hrawc⟩
        exact cleanColorItem_ok rawc c hrawc

/-- Witness for C4 at a well-formed raw page. -/
theorem c4_clean_cascade_witness :
    ((clean_page_products [c4GoodRaw]).headD emptyProduct).colors ≠ [] ∧
    ∀ c ∈ ((clean_page_products [c4GoodRaw]).headD emptyProduct).colors,
      c.sizes ≠ [] ∧
      floatOrNull c.unit_price = true ∧ floatOrNull c.sales_price = true ∧
      floatOrNull c.subtotal = true ∧
      ∀ s ∈ c.sizes, ∃ q, s.quantity = some q ∧ q.leInt 0 = false ∧
        ∀ r : ℚ, q = .pfloat (.fin r) → r.den ≠ 1 :=
  c4_clean_cascade [c4GoodRaw] _ (by with_unfolding_all decide)

/-! ## C8: fix_nan_in_products -/

/-- C8 counterexample. `fix_nan_in_products` only tests `math.isnan`, so
an Infinity `unit_price` passes through the last numeric-recovery stage
and the core returns a structure with a non-finite leaf. -/
theorem c8_counterexample_infinity_survives :
    ((fix_nan_in_products [c8Product] (273/100)).map
      (fun p => p.colors.map Color.unit_price)) =
      [[.pnum (.pfloat (.inf true))]] ∧
    (PyNum.pfloat (.inf true)).isFinite = false := by
  refine ⟨by with_unfolding_all decide, by with_unfolding_all decide⟩

/-- The `unit_price` produced by `fix_nan_color`. -/
theorem fix_nan_color_unit (markup : ℚ) (c : Color) :
    (fix_nan_color markup c).unit_price = .pnum (unitAfterFix c) ∧
    ((fix_nan_color markup c).unit_price).badPrice = false := by
  have hmain : (fix_nan_color markup c).unit_price =
      (if c.unit_price.badPrice then PField.pnum (.pfloat (.fin 0))
       else c.unit_price) := by
    unfold fix_nan_color
    dsimp only
    split_ifs <;> rfl
  by_cases hA : c.unit_price.badPrice = true
  · rw [hmain, if_pos hA]
    unfold unitAfterFix
    rw [if_pos hA]
    exact ⟨rfl, rfl⟩
  · rw [hmain, if_neg hA]
    unfold unitAfterFix
    rw [if_neg hA]
    cases hu : c.unit_price with
    | absent => rw [hu] at hA; exact absurd rfl hA
    | pnone => rw [hu] at hA; exact absurd rfl hA
    | pnum v =>
      rw [hu] at hA
      refine ⟨rfl, ?_⟩
      simp only [PField.badPrice] at hA ⊢
      simpa using hA

/-- The `sales_price` produced by `fix_nan_color`: a missing/None/NaN
value is replaced by `round(unit_price * markup, 2)` with the already
fixed unit price, anything else is kept. -/
theorem fix_nan_color_sales (markup : ℚ) (c : Color) :
    (fix_nan_color markup c).sales_price =
      (if c.sales_price.badPrice then
        PField.pnum (pyRound2 (PyNum.mul (unitAfterFix c) (.pfloat (.fin markup))))
       else c.sales_price) := by
  unfold fix_nan_color unitAfterFix
  dsimp only
  split_ifs <;> rfl

/-- The `subtotal` produced by `fix_nan_color`: a missing/None/NaN value
is replaced by `round(unit_price * total_quantity, 2)` where the total
quantity is summed over the raw (unfiltered) size list. -/
theorem fix_nan_color_subtotal (markup : ℚ) (c : Color) :
    (fix_nan_color markup c).subtotal =
      (if c.subtotal.badPrice then
        PField.pnum (pyRound2 (PyNum.mul (unitAfterFix c) (rawTotalQuantity c)))
       else c.subtotal) := by
  unfold fix_nan_color unitAfterFix rawTotalQuantity
  dsimp only
  split_ifs <;> rfl

/-- Every size kept by `fix_nan_color` has a present, positive
quantity. -/
theorem fix_nan_color_sizes (markup : ℚ) (c : Color) :
    ∀ s ∈ (fix_nan_color markup c).sizes,
      ∃ q, s.quantity = some q ∧ q.gtInt 0 = true := by
  have hmain : (fix_nan_color markup c).sizes =
      (c.sizes.map (fun s =>
        if s.quantity.isNone ∨ (s.quantity.getD (.pint 0)).isNan then
          { s with quantity := some (.pint 0) }
        else s)).filter (fun s => (s.quantity.getD (.pint 0)).gtInt 0) := by
    unfold fix_nan_color
    dsimp only
    split_ifs <;> rfl
  rw [hmain]
  intro s hs
  rcases List.mem_filter.mp hs with ⟨hmap, hgt⟩
  rcases List.mem_map.mp hmap with ⟨s0, _, hs0⟩
  by_cases hz : s0.quantity.isNone = true ∨ (s0.quantity.getD (.pint 0)).isNan = true
  · rw [if_pos hz] at hs0
    rw [← hs0] at hgt
    exact absurd hgt (by simp [Option.getD, PyNum.gtInt])
  · rw [if_neg hz] at hs0
    push_neg at hz
    rcases hz with ⟨hz1, _⟩
    cases hq : s0.quantity with
    | none => rw [hq] at hz1; exact absurd rfl hz1
    | some q =>
      refine ⟨q, by rw [← hs0, hq], ?_⟩
      rw [← hs0] at hgt
      rw [hq] at hgt
      simpa using hgt

/-- Every color of a product kept by `fix_nan_product` is the
`fix_nan_color` image of a color of the input product. -/
theorem mem_colors_fix_nan (markup : ℚ) (p0 p : Product)
    (h : fix_nan_product markup p0 = some p) :
    ∀ c ∈ p.colors, ∃ c0 ∈ p0.colors, c = fix_nan_color markup c0 := by
  have hcols : p.colors = (p0.colors.map (fix_nan_color markup)).filter
      (fun c => !c.sizes.isEmpty) := by
    unfold fix_nan_product at h
    dsimp only at h
    split_ifs at h <;>
      first
        | exact Option.noConfusion h
        | (injection h with h3; subst h3; rfl)
  intro c hc
  rw [hcols] at hc
  rcases List.mem_filter.mp hc with ⟨hmap, _⟩
  rcases List.mem_map.mp hmap with ⟨c0, hc0, hfc⟩
  exact ⟨c0, hc0, hfc.symm⟩

/-- C8 (amended): `fix_nan_in_products` repairs missing/None/NaN prices
as specified — `unit_price` is zeroed when missing/None/NaN and is never
missing/None/NaN afterwards, a missing/None/NaN `sales_price` becomes
`round(unit_price * markup, 2)` with the already fixed unit price, a
missing/None/NaN `subtotal` becomes `round(unit_price * total_quantity, 2)`
with the quantity summed over the raw size list, and every surviving size
has a present quantity `> 0`.  (The original claim's stronger guarantee
that no non-finite value survives is refuted by
`c8_counterexample_infinity_survives`: only `math.isnan` is tested, so
±Infinity passes through every stage untouched.) -/
theorem c8_fix_nan_field_formulas (products : List Product) (markup : ℚ)
    (p : Product) (hp : p ∈ fix_nan_in_products products markup) :
    ∀ c ∈ p.colors, ∃ p0 ∈ products, ∃ c0 ∈ p0.colors,
      c.unit_price = .pnum (unitAfterFix c0) ∧
      (c.unit_price).badPrice = false ∧
      c.sales_price = (if c0.sales_price.badPrice then
        PField.pnum (pyRound2 (PyNum.mul (unitAfterFix c0) (.pfloat (.fin markup))))
       else c0.sales_price) ∧
      c.subtotal = (if c0.subtotal.badPrice then
        PField.pnum (pyRound2 (PyNum.mul (unitAfterFix c0) (rawTotalQuantity c0)))
       else c0.subtotal) ∧
      (∀ s ∈ c.sizes, ∃ q, s.quantity = some q ∧ q.gtInt 0 = true) := by
  unfold fix_nan_in_products at hp
  rcases List.mem_filterMap.mp hp with ⟨p0, hp0, hfp⟩
  intro c hc
  rcases mem_colors_fix_nan markup p0 p hfp c hc with ⟨c0, hc0, hcc⟩
  refine ⟨p0, hp0, c0, hc0, ?_, ?_, ?_, ?_, ?_⟩
  · rw [hcc]; exact (fix_nan_color_unit markup c0).1
  · rw [hcc]; exact (fix_nan_color_unit markup c0).2
  · rw [hcc]; exact fix_nan_color_sales markup c0
  · rw [hcc]; exact fix_nan_color_subtotal markup c0
  · rw [hcc]; exact fix_nan_color_sizes markup c0

/-- C8 witness: the amended formulas hold of the (unchanged) output of
`fix_nan_in_products` on `c8Product`. -/
theorem c8_fix_nan_field_formulas_witness :
    ∃ p0 ∈ [c8Product], ∃ c0 ∈ p0.colors,
      c8Color.unit_price = .pnum (unitAfterFix c0) ∧
      (c8Color.unit_price).badPrice = false ∧
      c8Color.sales_price = (if c0.sales_price.badPrice then
        PField.pnum (pyRound2 (PyNum.mul (unitAfterFix c0) (.pfloat (.fin (273/100)))))
       else c0.sales_price) ∧
      c8Color.subtotal = (if c0.subtotal.badPrice then
        PField.pnum (pyRound2 (PyNum.mul (unitAfterFix c0) (rawTotalQuantity c0)))
       else c0.subtotal) ∧
      (∀ s ∈ c8Color.sizes, ∃ q, s.quantity = some q ∧ q.gtInt 0 = true) :=
  c8_fix_nan_field_formulas [c8Product] (273/100) c8Product
    (by with_unfolding_all decide) c8Color (by with_unfolding_all decide)

/-! ## C2: generate_barcode -/

/-- `natDigitsAux` on a three-digit number yields its three digits,
least significant first. -/
theorem natDigitsAux_three (n : Nat) (h1 : 100 ≤ n) (h2 : n < 1000) :
    natDigitsAux n.succ n = [n % 10, n / 10 % 10, n / 100] := by
  have hn10 : ¬ n < 10 := by omega
  have hd1b : ¬ n / 10 < 10 := by omega
  have hdd : n / 10 / 10 = n / 100 := by omega
  rw [natDigitsAux, if_neg hn10]
  rw [natDigitsAux, if_neg hd1b]
  rw [natDigitsAux, if_pos (by omega : n / 10 / 10 < 10)]
  rw [hdd]

/-- Decimal digit characters satisfy `isDigitCh`. -/
theorem isDigitCh_ofNat (d : Nat) (h : d < 10) :
    isDigitCh (Char.ofNat (48 + d)) = true := by
  interval_cases d <;> decide

/-- Code point of a decimal digit character. -/
theorem toNat_digitCh (d : Nat) (h : d < 10) :
    (Char.ofNat (48 + d)).toNat = 48 + d := by
  interval_cases d <;> decide

/-- `str(n)` of a three-digit number: three digit characters that decode
back to `n`. -/
theorem natStr_three_digits (n : Nat) (h2 : n < 1000) (h1 : 100 ≤ n) :
    (natStr n).length = 3 ∧ (natStr n).all isDigitCh = true ∧
    natOfDigits (natStr n) = n := by
  have hs : natStr n = [Char.ofNat (48 + n / 100), Char.ofNat (48 + n / 10 % 10),
      Char.ofNat (48 + n % 10)] := by
    unfold natStr
    rw [natDigitsAux_three n h1 h2]
    rfl
  rw [hs]
  refine ⟨rfl, ?_, ?_⟩
  · simp only [List.all_cons, List.all_nil, Bool.and_true,
      isDigitCh_ofNat _ (by omega : n / 100 < 10),
      isDigitCh_ofNat _ (by omega : n / 10 % 10 < 10),
      isDigitCh_ofNat _ (by omega : n % 10 < 10)]
  · unfold natOfDigits
    simp only [List.foldl]
    rw [toNat_digitCh _ (by omega : n / 100 < 10),
      toNat_digitCh _ (by omega : n / 10 % 10 < 10),
      toNat_digitCh _ (by omega : n % 10 < 10)]
    omega

/-- `zfill` on a pure digit string is a plain left pad with zeros. -/
theorem pyZfill_digits (s : Str) (w : Nat) (h : s.all isDigitCh = true) :
    pyZfill s w = List.replicate (w - s.length) '0' ++ s := by
  unfold pyZfill
  split
  all_goals
    first
      | rfl
      | exact absurd (List.all_eq_true.mp h _ (List.mem_cons_self _ _))
          (by decide)

/-- `zfill` on a digit string: the result has length `max w len` and is
all digits. -/
theorem pyZfill_spec (s : Str) (w : Nat) (h : s.all isDigitCh = true) :
    (pyZfill s w).length = max w s.length ∧
    (pyZfill s w).all isDigitCh = true := by
  rw [pyZfill_digits s w h]
  constructor
  · simp only [List.length_append, List.length_replicate]
    omega
  · rw [List.all_append, h, Bool.and_true]
    exact List.all_eq_true.mpr
      (fun x hx => by rw [List.eq_of_mem_replicate hx]; decide)

/-- A successful association-list lookup yields one of the stored
values. -/
theorem lookup_mem_values {α β : Type _} [BEq α] (a : α) (b : β) :
    ∀ l : List (α × β), l.lookup a = some b →
      b ∈ l.map (fun p => p.2) := by
  intro l
  induction l with
  | nil => intro h; exact absurd h (by simp)
  | cons p rest ih =>
    obtain ⟨k, v⟩ := p
    intro h
    rw [List.lookup] at h
    split at h
    · injection h with h1
      exact h1 ▸ List.mem_map_of_mem _ (List.mem_cons_self _ _)
    · exact List.mem_cons_of_mem _ (ih h)

/-- A successful `findSome?` comes from a member of the list. -/
theorem findSome?_eq_some_mem {α β : Type _} (f : α → Option β) (b : β) :
    ∀ l : List α, l.findSome? f = some b → ∃ a ∈ l, f a = some b := by
  intro l
  induction l with
  | nil => intro h; exact absurd h (by simp)
  | cons x xs ih =>
    intro h
    rw [List.findSome?_cons] at h
    cases hf : f x with
    | some y =>
      rw [hf] at h
      dsimp only at h
      exact ⟨x, List.mem_cons_self _ _, by rw [hf]; exact h⟩
    | none =>
      rw [hf] at h
      dsimp only at h
      rcases ih h with ⟨a, ha, hfa⟩
      exact ⟨a, List.mem_cons_of_mem _ ha, hfa⟩

/-- Any code returned by `get_supplier_code` is one of the catalog
codes. -/
theorem get_supplier_code_mem (q c : Str) (h : get_supplier_code q = some c) :
    c ∈ SUPPLIER_CODE_MAP.map (fun p => p.2) := by
  unfold get_supplier_code at h
  dsimp only at h
  cases hl : SUPPLIER_CODE_MAP.lookup q with
  | some code =>
    rw [hl] at h
    dsimp only at h
    injection h with h1
    exact h1 ▸ lookup_mem_values q code SUPPLIER_CODE_MAP hl
  | none =>
    rw [hl] at h
    dsimp only at h
    rcases findSome?_eq_some_mem _ c _ h with ⟨p, hp, hfp⟩
    split_ifs at hfp
    injection hfp with h1
    exact h1 ▸ List.mem_map_of_mem _ hp

/-- Any code returned by `get_size_code` is one of the catalog size
codes. -/
theorem get_size_code_mem (q sc : Str) (h : get_size_code q = some sc) :
    sc ∈ SIZE_MAP.map (fun p => p.2) := by
  unfold get_size_code at h
  dsimp only at h
  cases hl : SIZE_MAP.lookup (pyUpper q) with
  | some code =>
    rw [hl] at h
    dsimp only at h
    injection h with h1
    exact h1 ▸ lookup_mem_values (pyUpper q) code SIZE_MAP hl
  | none =>
    rw [hl] at h
    dsimp only at h
    rcases findSome?_eq_some_mem _ sc _ h with ⟨p, hp, hfp⟩
    split_ifs at hfp
    injection hfp with h1
    exact h1 ▸ List.mem_map_of_mem _ hp

/-- Every supplier code key of the catalog is two digit characters. -/
theorem supplier_data_codes_two_digits :
    ∀ c ∈ SUPPLIER_DATA.map (fun e => e.1),
      c.length = 2 ∧ c.all isDigitCh = true := by
  with_unfolding_all decide

/-- Every value of the name-to-code supplier table is two digit
characters. -/
theorem supplier_code_values_two_digits :
    ∀ c ∈ SUPPLIER_CODE_MAP.map (fun p => p.2),
      c.length = 2 ∧ c.all isDigitCh = true := by
  with_unfolding_all decide

/-- Every size code of the catalog is three digit characters. -/
theorem size_code_values_three_digits :
    ∀ c ∈ SIZE_MAP.map (fun p => p.2),
      c.length = 3 ∧ c.all isDigitCh = true := by
  with_unfolding_all decide

/-- A supplier code resolved by `get_normalized_supplier` is two digit
characters. -/
theorem get_normalized_supplier_code_two (s c : Str)
    (h : (get_normalized_supplier s).2 = some c) :
    c.length = 2 ∧ c.all isDigitCh = true := by
  unfold get_normalized_supplier at h
  dsimp only at h
  cases hf : SUPPLIER_DATA.find? (fun e => e.2.1 = match_supplier_name s) with
  | some e =>
    rw [hf] at h
    dsimp only at h
    injection h with h1
    exact h1 ▸ supplier_data_codes_two_digits e.1
      (List.mem_map_of_mem _ (List.mem_of_find?_eq_some hf))
  | none =>
    rw [hf] at h
    dsimp only at h
    exact supplier_code_values_two_digits c (get_supplier_code_mem _ c h)

/-- The supplier block of a barcode is always two digit characters. -/
theorem barcodeSupplierCode_spec (s : Str) :
    (barcodeSupplierCode s).length = 2 ∧
    (barcodeSupplierCode s).all isDigitCh = true := by
  unfold barcodeSupplierCode
  dsimp only
  cases hn : (get_normalized_supplier s).2 with
  | none =>
    with_unfolding_all decide
  | some c =>
    dsimp only
    by_cases hc : c = []
    · rw [if_pos hc]
      with_unfolding_all decide
    · rw [if_neg hc]
      obtain ⟨hl, hd⟩ := get_normalized_supplier_code_two s c hn
      obtain ⟨hL, hD⟩ := pyZfill_spec c 2 hd
      exact ⟨by rw [hL, hl]; rfl, hD⟩

/-- The counter block of a barcode: three digit characters decoding to
`100 + min(counter, 899)`, for a non-negative counter. -/
theorem barcodeCounterCode_spec (product_counter : ℤ)
    (hpc : 0 ≤ product_counter) :
    (barcodeCounterCode product_counter).length = 3 ∧
    (barcodeCounterCode product_counter).all isDigitCh = true ∧
    natOfDigits (barcodeCounterCode product_counter) =
      (100 + min product_counter 899).toNat := by
  unfold barcodeCounterCode
  have h1 : (0:ℤ) ≤ min product_counter 899 := le_min hpc (by norm_num)
  have h2 : min product_counter 899 ≤ 899 := min_le_right _ _
  have hnn : (0:ℤ) ≤ 100 + min product_counter 899 := by omega
  have hint : intStr (100 + min product_counter 899) =
      natStr (100 + min product_counter 899).toNat := by
    unfold intStr
    rw [if_neg (not_lt.mpr hnn)]
    congr 1
    omega
  rw [hint]
  set m := (100 + min product_counter 899).toNat with hm
  have hml : m < 1000 := by omega
  have hmg : 100 ≤ m := by omega
  obtain ⟨hl, hd, hv⟩ := natStr_three_digits m hml hmg
  rw [pyZfill_digits _ 3 hd, hl]
  simp only [Nat.sub_self, List.replicate_zero, List.nil_append]
  exact ⟨hl, hd, hv⟩

/-- The color block of a barcode is three digit characters whenever the
incoming color code is empty (default `"001"`) or at most three
digits. -/
theorem barcodeColorCode_spec (cc : Str)
    (h : cc = [] ∨ (cc.length ≤ 3 ∧ cc.all isDigitCh = true)) :
    (barcodeColorCode cc).length = 3 ∧
    (barcodeColorCode cc).all isDigitCh = true := by
  unfold barcodeColorCode
  by_cases hcc : cc = []
  · rw [if_neg (by simp [hcc])]
    with_unfolding_all decide
  · rw [if_pos hcc]
    rcases h with h | ⟨h1, h2⟩
    · exact absurd h hcc
    · obtain ⟨hL, hD⟩ := pyZfill_spec cc 3 h2
      refine ⟨?_, hD⟩
      rw [hL]
      omega

/-- The size block of a barcode is always three digit characters. -/
theorem barcodeSizeCode_spec (size : Str) :
    (barcodeSizeCode size).length = 3 ∧
    (barcodeSizeCode size).all isDigitCh = true := by
  unfold barcodeSizeCode
  dsimp only
  cases hg : get_size_code size with
  | none =>
    with_unfolding_all decide
  | some sc =>
    dsimp only
    by_cases hsc : sc = []
    · rw [if_pos hsc]
      with_unfolding_all decide
    · rw [if_neg hsc]
      obtain ⟨hl, hd⟩ := size_code_values_three_digits sc
        (get_size_code_mem size sc hg)
      obtain ⟨hL, hD⟩ := pyZfill_spec sc 3 hd
      exact ⟨by rw [hL, hl]; rfl, hD⟩

/-- C2 counterexample. The claim promises a 13-digit barcode for every
call, but a four-character color code survives `zfill(3)` unshortened
and produces a 14-character barcode. -/
theorem c2_counterexample_wide_color_code :
    (generate_barcode (sl "HUGO BOSS") 1 (sl "0008") (sl "M")
      (sl "00")).length = 14 := by
  with_unfolding_all decide

/-- C2 (amended): for a non-negative counter, a two-digit season code
and a color code that is empty or at most three digits, the barcode is
exactly 13 digit characters decomposing into the claimed five blocks —
season (2), supplier (2), counter (3, decoding to
`100 + min(counter, 899)`), color (3) and size (3).  (For over-wide or
non-digit color codes — and likewise non-digit season codes — the
source's `zfill` never truncates, so the 13-digit shape of the original
claim fails, see `c2_counterexample_wide_color_code`; the `except`
branch is unreachable on string/number inputs, and its dummy code would
in fact have 16 characters, not 13.) -/
theorem c2_generate_barcode_structure (supplier : Str)
    (product_counter : ℤ) (color_code size season_code : Str)
    (hpc : 0 ≤ product_counter)
    (hseason : season_code.length = 2 ∧ season_code.all isDigitCh = true)
    (hcolor : color_code = [] ∨
      (color_code.length ≤ 3 ∧ color_code.all isDigitCh = true)) :
    ∃ sup cnt col siz : Str,
      generate_barcode supplier product_counter color_code size season_code =
        season_code ++ sup ++ cnt ++ col ++ siz ∧
      sup.length = 2 ∧ cnt.length = 3 ∧ col.length = 3 ∧ siz.length = 3 ∧
      sup.all isDigitCh = true ∧ cnt.all isDigitCh = true ∧
      col.all isDigitCh = true ∧ siz.all isDigitCh = true ∧
      natOfDigits cnt = (100 + min product_counter 899).toNat ∧
      (generate_barcode supplier product_counter color_code size
        season_code).length = 13 ∧
      (generate_barcode supplier product_counter color_code size
        season_code).all isDigitCh = true := by
  obtain ⟨hsl2, hsd⟩ := hseason
  obtain ⟨hsupL, hsupD⟩ := barcodeSupplierCode_spec supplier
  obtain ⟨hcntL, hcntD, hcntV⟩ := barcodeCounterCode_spec product_counter hpc
  obtain ⟨hcolL, hcolD⟩ := barcodeColorCode_spec color_code hcolor
  obtain ⟨hsizL, hsizD⟩ := barcodeSizeCode_spec size
  refine ⟨barcodeSupplierCode supplier, barcodeCounterCode product_counter,
    barcodeColorCode color_code, barcodeSizeCode size, rfl,
    hsupL, hcntL, hcolL, hsizL, hsupD, hcntD, hcolD, hsizD, hcntV, ?_, ?_⟩
  · unfold generate_barcode
    simp only [List.length_append, hsl2, hsupL, hcntL, hcolL, hsizL]
  · unfold generate_barcode
    simp only [List.all_append, hsd, hsupD, hcntD, hcolD, hsizD,
      Bool.and_self]

/-- C2 witness: the structure theorem instantiated on a concrete call. -/
theorem c2_generate_barcode_structure_witness :
    ∃ sup cnt col siz : Str,
      generate_barcode (sl "HUGO BOSS") 1 (sl "008") (sl "M") (sl "00") =
        sl "00" ++ sup ++ cnt ++ col ++ siz ∧
      sup.length = 2 ∧ cnt.length = 3 ∧ col.length = 3 ∧ siz.length = 3 ∧
      sup.all isDigitCh = true ∧ cnt.all isDigitCh = true ∧
      col.all isDigitCh = true ∧ siz.all isDigitCh = true ∧
      natOfDigits cnt = (100 + min (1:ℤ) 899).toNat ∧
      (generate_barcode (sl "HUGO BOSS") 1 (sl "008") (sl "M")
        (sl "00")).length = 13 ∧
      (generate_barcode (sl "HUGO BOSS") 1 (sl "008") (sl "M")
        (sl "00")).all isDigitCh = true :=
  c2_generate_barcode_structure (sl "HUGO BOSS") 1 (sl "008") (sl "M")
    (sl "00") (by norm_num)
    ⟨by with_unfolding_all decide, by with_unfolding_all decide⟩
    (Or.inr ⟨by with_unfolding_all decide, by with_unfolding_all decide⟩)

/-! ## C6: color-merge order independence -/

/-- Membership in the color-merge fold: starting from a synchronized
accumulator, a color is in the result exactly when it was already
present or is a new-list color whose (truthy, per-list unique) code is
not among the existing codes. -/
theorem mergeFold_mem (ys : List Color) :
    ∀ A : List Color,
      (∀ c ∈ ys, ∃ cc, c.color_code = some cc ∧ cc ≠ []) →
      (ys.map Color.color_code).Nodup →
      ∀ c, (c ∈ (ys.foldl mergeColorStep (A, A.map Color.color_code)).1 ↔
        c ∈ A ∨ (c ∈ ys ∧ c.color_code ∉ A.map Color.color_code)) := by
  induction ys with
  | nil =>
    intro A _ _ c
    simp
  | cons y ys ih =>
    intro A hY hnd c
    obtain ⟨cc, hcc, hccne⟩ := hY y (List.mem_cons_self _ _)
    have hYs : ∀ c ∈ ys, ∃ cc, c.color_code = some cc ∧ cc ≠ [] :=
      fun c hc => hY c (List.mem_cons_of_mem _ hc)
    have hnds : (ys.map Color.color_code).Nodup :=
      (List.nodup_cons.mp (by simpa using hnd)).2
    have hyhd : y.color_code ∉ ys.map Color.color_code :=
      (List.nodup_cons.mp (by simpa using hnd)).1
    have hstep : mergeColorStep (A, A.map Color.color_code) y =
        if (some cc) ∈ A.map Color.color_code then
          (A, A.map Color.color_code)
        else (A ++ [y], A.map Color.color_code ++ [some cc]) := by
      unfold mergeColorStep
      rw [hcc]
      dsimp only
      by_cases hmem : (some cc) ∈ A.map Color.color_code
      · rw [if_pos hmem, if_neg (fun h => h.2 hmem)]
      · rw [if_neg hmem, if_pos ⟨hccne, hmem⟩]
    rw [List.foldl_cons, hstep]
    by_cases hmem : (some cc) ∈ A.map Color.color_code
    · rw [if_pos hmem, ih A hYs hnds c]
      constructor
      · rintro (h | ⟨h1, h2⟩)
        · exact Or.inl h
        · exact Or.inr ⟨List.mem_cons_of_mem _ h1, h2⟩
      · rintro (h | ⟨h1, h2⟩)
        · exact Or.inl h
        · rcases List.mem_cons.mp h1 with rfl | h1'
          · exact absurd (by rw [hcc]; exact hmem) h2
          · exact Or.inr ⟨h1', h2⟩
    · rw [if_neg hmem]
      have hmapA : (A ++ [y]).map Color.color_code =
          A.map Color.color_code ++ [some cc] := by
        rw [List.map_append]
        simp [hcc]
      rw [← hmapA, ih (A ++ [y]) hYs hnds c]
      constructor
      · rintro (h | ⟨h1, h2⟩)
        · rcases List.mem_append.mp h with h' | h'
          · exact Or.inl h'
          · have hcy : c = y := by simpa using h'
            subst hcy
            exact Or.inr ⟨List.mem_cons_self _ _, by rw [hcc]; exact hmem⟩
        · refine Or.inr ⟨List.mem_cons_of_mem _ h1, fun hin => h2 ?_⟩
          rw [hmapA]
          exact List.mem_append.mpr (Or.inl hin)
      · rintro (h | ⟨h1, h2⟩)
        · exact Or.inl (List.mem_append.mpr (Or.inl h))
        · rcases List.mem_cons.mp h1 with rfl | h1'
          · exact Or.inl (List.mem_append.mpr (Or.inr (by simp)))
          · refine Or.inr ⟨h1', fun hin => ?_⟩
            rw [hmapA] at hin
            rcases List.mem_append.mp hin with hin' | hin'
            · exact h2 hin'
            · have hcany : c.color_code = some cc := by simpa using hin'
              have hmm : y.color_code ∈ ys.map Color.color_code := by
                rw [hcc, ← hcany]
                exact List.mem_map_of_mem _ h1'
              exact hyhd hmm

/-- Membership in `mergeColorsInto`, for truthy and per-list unique new
codes. -/
theorem mergeColorsInto_mem (X Y : List Color)
    (hY : ∀ c ∈ Y, ∃ cc, c.color_code = some cc ∧ cc ≠ [])
    (hYnd : (Y.map Color.color_code).Nodup) (c : Color) :
    c ∈ mergeColorsInto X Y ↔
      c ∈ X ∨ (c ∈ Y ∧ c.color_code ∉ X.map Color.color_code) := by
  unfold mergeColorsInto
  exact mergeFold_mem Y X hY hYnd c

/-- C6 counterexample. A color with a `None` color code survives when
its page is canonical (first seen) but is dropped when merged into the
other page, even though the two pages report no conflicting color codes
or sizes: the merged color set depends on page order. -/
theorem c6_counterexample_none_code_order :
    c6NoCode ∈ mergeColorsInto [c6NoCode] [c6Coded] ∧
    c6NoCode ∉ mergeColorsInto [c6Coded] [c6NoCode] ∧
    (mergeColorsInto [c6NoCode] [c6Coded]).length = 2 ∧
    (mergeColorsInto [c6Coded] [c6NoCode]).length = 1 := by
  refine ⟨?_, ?_, ?_, ?_⟩ <;> with_unfolding_all decide

/-- C6 (amended): the deduplication merge is order-independent as a
color set provided every color of both pages has a truthy (non-empty,
non-`None`) `color_code`, each page lists distinct codes, and the two
pages agree on colors with a shared code.  (Without the truthiness
proviso the claim fails: a `None`/empty-coded color is kept on the
canonical page but never merged from the other page, see
`c6_counterexample_none_code_order`.) -/
theorem c6_merge_color_sets_commute (X Y : List Color)
    (hX : ∀ c ∈ X, ∃ cc, c.color_code = some cc ∧ cc ≠ [])
    (hY : ∀ c ∈ Y, ∃ cc, c.color_code = some cc ∧ cc ≠ [])
    (hXnd : (X.map Color.color_code).Nodup)
    (hYnd : (Y.map Color.color_code).Nodup)
    (hagree : ∀ cx ∈ X, ∀ cy ∈ Y, cx.color_code = cy.color_code → cx = cy) :
    ∀ c, c ∈ mergeColorsInto X Y ↔ c ∈ mergeColorsInto Y X := by
  intro c
  rw [mergeColorsInto_mem X Y hY hYnd c, mergeColorsInto_mem Y X hX hXnd c]
  constructor
  · rintro (hcX | ⟨hcY, hnc⟩)
    · by_cases hm : c.color_code ∈ Y.map Color.color_code
      · rcases List.mem_map.mp hm with ⟨cy, hcy, hcode⟩
        exact Or.inl ((hagree c hcX cy hcy hcode.symm) ▸ hcy)
      · exact Or.inr ⟨hcX, hm⟩
    · exact Or.inl hcY
  · rintro (hcY | ⟨hcY, hnc⟩)
    · by_cases hm : c.color_code ∈ X.map Color.color_code
      · rcases List.mem_map.mp hm with ⟨cx, hcx, hcode⟩
        exact Or.inl ((hagree cx hcx c hcY hcode).symm ▸ hcx)
      · exact Or.inr ⟨hcY, hm⟩
    · exact Or.inl hcY

/-- C6 witness: order independence on two concrete one-color pages. -/
theorem c6_merge_color_sets_commute_witness :
    c6Coded ∈ mergeColorsInto [c6Coded] [c6Coded2] ↔
      c6Coded ∈ mergeColorsInto [c6Coded2] [c6Coded] :=
  c6_merge_color_sets_commute [c6Coded] [c6Coded2]
    (fun c hc => by
      obtain rfl := List.mem_singleton.mp hc
      exact ⟨sl "001", by with_unfolding_all decide, by with_unfolding_all decide⟩)
    (fun c hc => by
      obtain rfl := List.mem_singleton.mp hc
      exact ⟨sl "002", by with_unfolding_all decide, by with_unfolding_all decide⟩)
    (by simp)
    (by simp)
    (fun cx hcx cy hcy h => by
      obtain rfl := List.mem_singleton.mp hcx
      obtain rfl := List.mem_singleton.mp hcy
      exact absurd h (by with_unfolding_all decide))
    c6Coded

/-! ## C5: supplier fuzzy matching -/

/-- The initial matching run is bounded by both lengths. -/
theorem runLen_le : ∀ as bs : Str, runLen as bs ≤ min as.length bs.length := by
  intro as
  induction as with
  | nil => intro bs; cases bs <;> simp [runLen]
  | cons a as ih =>
    intro bs
    cases bs with
    | nil => simp [runLen]
    | cons b bs =>
      simp only [runLen, List.length_cons]
      split_ifs
      · have := ih bs
        omega
      · omega

/-- The longest matching block lies inside both strings. -/
theorem findLongestMatch_bounds (a b : Str) :
    (findLongestMatch a b).1 + (findLongestMatch a b).2.2 ≤ a.length ∧
    (findLongestMatch a b).2.1 + (findLongestMatch a b).2.2 ≤ b.length := by
  unfold findLongestMatch
  refine foldl_inv_mem _
    (fun t => t.1 + t.2.2 ≤ a.length ∧ t.2.1 + t.2.2 ≤ b.length)
    (List.range a.length) ?_ (0, 0, 0) (by simp)
  intro s i hi hs
  refine foldl_inv_mem _
    (fun t => t.1 + t.2.2 ≤ a.length ∧ t.2.1 + t.2.2 ≤ b.length)
    (List.range b.length) ?_ s hs
  intro t j hj ht
  dsimp only
  split_ifs with hk
  · have hi' : i < a.length := List.mem_range.mp hi
    have hj' : j < b.length := List.mem_range.mp hj
    have hr := runLen_le (a.drop i) (b.drop j)
    simp only [List.length_drop] at hr
    dsimp only
    constructor <;> omega
  · exact ht

/-- The total matched size never exceeds either length. -/
theorem matchedAux_le : ∀ (fuel : Nat) (a b : Str),
    matchedAux fuel a b ≤ min a.length b.length := by
  intro fuel
  induction fuel with
  | zero => intro a b; simp [matchedAux]
  | succ fuel ih =>
    intro a b
    rw [matchedAux]
    split_ifs with h0
    · omega
    · obtain ⟨h1, h2⟩ := findLongestMatch_bounds a b
      have e1 := ih (a.take (findLongestMatch a b).1)
        (b.take (findLongestMatch a b).2.1)
      have e2 := ih (a.drop ((findLongestMatch a b).1 + (findLongestMatch a b).2.2))
        (b.drop ((findLongestMatch a b).2.1 + (findLongestMatch a b).2.2))
      simp only [List.length_take, List.length_drop] at e1 e2
      omega

/-- The sequence ratio is at most 1. -/
theorem seqRatioQ_le_one (a b : Str) : seqRatioQ a b ≤ 1 := by
  unfold seqRatioQ
  split_ifs with h
  · exact le_refl 1
  · rw [div_le_one (by exact_mod_cast Nat.pos_of_ne_zero h)]
    have hm : smMatched a b ≤ min a.length b.length := matchedAux_le _ a b
    have h2 : 2 * smMatched a b ≤ a.length + b.length := by omega
    exact_mod_cast h2

/-- The sequence ratio is non-negative. -/
theorem seqRatioQ_nonneg (a b : Str) : 0 ≤ seqRatioQ a b := by
  unfold seqRatioQ
  split_ifs
  · norm_num
  · positivity

/-- The token-set overlap is non-negative. -/
theorem setOverlapQ_nonneg (s1 s2 : Str) : 0 ≤ setOverlapQ s1 s2 := by
  unfold setOverlapQ
  split_ifs
  · norm_num
  · positivity

/-- The token-set overlap is at most 1. -/
theorem setOverlapQ_le_one (s1 s2 : Str) : setOverlapQ s1 s2 ≤ 1 := by
  unfold setOverlapQ
  split_ifs with h
  · norm_num
  · push_neg at h
    obtain ⟨h1, _⟩ := h
    rw [div_le_one]
    · have hf : ((tokenSet s1).filter (· ∈ tokenSet s2)).length ≤
          (tokenSet s1).length := List.length_filter_le _ _
      have hm : (tokenSet s1).length ≤
          max (tokenSet s1).length (tokenSet s2).length := le_max_left _ _
      exact_mod_cast le_trans hf hm
    · have h1p : 0 < (tokenSet s1).length := List.length_pos.mpr h1
      have : 0 < max (tokenSet s1).length (tokenSet s2).length :=
        lt_of_lt_of_le h1p (le_max_left _ _)
      exact_mod_cast this

/-- The significant-token bonus is between 0 and 1/5. -/
theorem bonusQ_bounds (s1 s2 : Str) :
    0 ≤ bonusQ s1 s2 ∧ bonusQ s1 s2 ≤ 1/5 := by
  unfold bonusQ
  split_ifs <;> norm_num

/-- The final `min(..., 1.0)` cap of the similarity score never binds:
the capped score equals the claimed weighted sum. -/
theorem calculate_similarity_score_eq (s1 s2 : Str) :
    calculate_similarity_score s1 s2 =
      seqRatioQ s1 s2 * (2/5) + setOverlapQ s1 s2 * (2/5) + bonusQ s1 s2 := by
  have hmin : calculate_similarity_score s1 s2 =
      min (seqRatioQ s1 s2 * (2/5) + setOverlapQ s1 s2 * (2/5) +
        bonusQ s1 s2) 1 := rfl
  rw [hmin]
  apply min_eq_left
  have h1 := seqRatioQ_le_one s1 s2
  have h1' := seqRatioQ_nonneg s1 s2
  have h2 := setOverlapQ_le_one s1 s2
  have h2' := setOverlapQ_nonneg s1 s2
  have h3 := bonusQ_bounds s1 s2
  linarith [h3.1, h3.2]

/-- The in-loop token floor, characterized: it raises the score to at
least 0.7 exactly when a significant token is shared verbatim. -/
theorem tokenFloor_aux (sup : Str) :
    ∀ (l : List Str) (sc : ℚ),
      l.foldl (fun sc tok =>
        if decide (tok.length ≥ 4) ∧ tok ∈ pySplitWs sup then max sc (7/10)
        else sc) sc =
      (if ∃ tok ∈ l, 4 ≤ tok.length ∧ tok ∈ pySplitWs sup then
        max sc (7/10) else sc) := by
  intro l
  induction l with
  | nil =>
    intro sc
    rw [List.foldl_nil, if_neg (by simp)]
  | cons t ts ih =>
    intro sc
    rw [List.foldl_cons]
    by_cases hp : decide (t.length ≥ 4) ∧ t ∈ pySplitWs sup
    · rw [if_pos hp, ih (max sc (7/10))]
      have hcons : ∃ tok ∈ t :: ts, 4 ≤ tok.length ∧ tok ∈ pySplitWs sup :=
        ⟨t, List.mem_cons_self _ _, by simpa using hp.1, hp.2⟩
      by_cases hts : ∃ tok ∈ ts, 4 ≤ tok.length ∧ tok ∈ pySplitWs sup
      · rw [if_pos hts, if_pos hcons, max_assoc, max_self]
      · rw [if_neg hts, if_pos hcons]
    · rw [if_neg hp, ih sc]
      by_cases hts : ∃ tok ∈ ts, 4 ≤ tok.length ∧ tok ∈ pySplitWs sup
      · rcases hts with ⟨tok, htok, hc⟩
        rw [if_pos ⟨tok, htok, hc⟩,
          if_pos ⟨tok, List.mem_cons_of_mem _ htok, hc⟩]
      · rw [if_neg hts, if_neg ?_]
        rintro ⟨tok, htk, hc⟩
        rcases List.mem_cons.mp htk with rfl | hm
        · exact hp ⟨by simpa using hc.1, hc.2⟩
        · exact hts ⟨tok, hm, hc⟩

/-- A supplier proposed by `find_most_similar_supplier` is a catalog
name. -/
theorem find_most_similar_mem (n b : Str)
    (h : (find_most_similar_supplier n).1 = some b) : b ∈ supplierNames := by
  unfold find_most_similar_supplier at h
  split_ifs at h with hn
  cases hf : supplierNames.find?
      (fun s => normalize_supplier_name s = n) with
  | some s =>
    rw [hf] at h
    dsimp only at h
    injection h with h1
    exact h1 ▸ List.mem_of_find?_eq_some hf
  | none =>
    rw [hf] at h
    dsimp only at h
    have hinv := foldl_inv_mem
      (fun (best : Option Str × ℚ) known =>
        let ns := normalize_supplier_name known
        if ns = [] then best
        else
          let score0 := calculate_similarity_score n ns
          let score := tokenFloor n ns score0
          if score > best.2 then (some known, score) else best)
      (fun best => best.1 = none ∨ ∃ k ∈ supplierNames, best.1 = some k)
      supplierNames ?_ (none, 0) (Or.inl rfl)
    · rcases hinv with hnone | ⟨k, hk, hkeq⟩
      · rw [h] at hnone
        exact Option.noConfusion hnone
      · rw [h] at hkeq
        injection hkeq with h1
        exact h1 ▸ hk
    · intro s a ha hs
      dsimp only
      split_ifs with h1 h2
      · exact hs
      · exact Or.inr ⟨a, ha, rfl⟩
      · exact hs

/-- C5 counterexample. A blank candidate is not "returned unchanged":
`match_supplier_name` replaces it by the fixed placeholder, which is
neither the input nor a catalog name. -/
theorem c5_counterexample_blank_input :
    match_supplier_name [] = fornecedorNaoIdentificado ∧
    fornecedorNaoIdentificado ≠ ([] : Str) ∧
    fornecedorNaoIdentificado ∉ supplierNames := by
  refine ⟨?_, ?_, ?_⟩ <;> with_unfolding_all decide

/-- C5 (amended): the claimed matching pipeline holds for non-blank
candidates — the similarity score is exactly the claimed weighted sum
(the `min(..., 1)` cap never binds), the loop floor raises the score to
at least 0.7 exactly when a token of length `>= 4` is shared verbatim,
an exact catalog name wins immediately, and the result is either the
input itself or a catalog name whose (floored) best score exceeds 0.3 —
never null.  Blank input, however, yields the fixed placeholder
`"Fornecedor não identificado"` instead of the original string
(see `c5_counterexample_blank_input`). -/
theorem c5_match_supplier_spec :
    (∀ s1 s2 : Str, calculate_similarity_score s1 s2 =
      seqRatioQ s1 s2 * (2/5) + setOverlapQ s1 s2 * (2/5) + bonusQ s1 s2) ∧
    (∀ n sup : Str, ∀ sc : ℚ, tokenFloor n sup sc =
      (if ∃ tok ∈ pySplitWs n, 4 ≤ tok.length ∧ tok ∈ pySplitWs sup then
        max sc (7/10) else sc)) ∧
    (∀ s : Str, (s = [] ∨ pyStrip s = []) →
      match_supplier_name s = fornecedorNaoIdentificado) ∧
    (∀ s : Str, ¬(s = [] ∨ pyStrip s = []) → s ∈ supplierNames →
      match_supplier_name s = s) ∧
    (∀ s : Str, ¬(s = [] ∨ pyStrip s = []) →
      match_supplier_name s = s ∨
        (match_supplier_name s ∈ supplierNames ∧
          (find_most_similar_supplier (normalize_supplier_name s)).2 > 3/10)) := by
  refine ⟨?_, ?_, ?_, ?_, ?_⟩
  · exact calculate_similarity_score_eq
  · intro n sup sc
    unfold tokenFloor
    exact tokenFloor_aux sup (pySplitWs n) sc
  · intro s hb
    unfold match_supplier_name
    rw [if_pos hb]
  · intro s hns hmem
    unfold match_supplier_name
    rw [if_neg hns, if_pos hmem]
  · intro s hns
    unfold match_supplier_name
    rw [if_neg hns]
    by_cases hmem : s ∈ supplierNames
    · rw [if_pos hmem]
      exact Or.inl rfl
    · rw [if_neg hmem]
      dsimp only
      by_cases hne : normalize_supplier_name s = []
      · rw [if_pos hne]
        exact Or.inl rfl
      · rw [if_neg hne]
        cases hr : (find_most_similar_supplier (normalize_supplier_name s)).1 with
        | none => exact Or.inl rfl
        | some best =>
          dsimp only
          by_cases hc : best ≠ [] ∧
              (find_most_similar_supplier (normalize_supplier_name s)).2 > 3/10
          · rw [if_pos hc]
            exact Or.inr ⟨find_most_similar_mem _ best hr, hc.2⟩
          · rw [if_neg hc]
            exact Or.inl rfl

/-- C5 witness: the exact catalog name `"HUGO BOSS"` is returned
unchanged. -/
theorem c5_match_supplier_spec_witness :
    match_supplier_name (sl "HUGO BOSS") = sl "HUGO BOSS" :=
  c5_match_supplier_spec.2.2.2.1 (sl "HUGO BOSS")
    (by with_unfolding_all decide) (by with_unfolding_all decide)
